import Mathlib

/-!
# SimdUtil: CPU capability query and aligned allocator

A shallow embedding of `include/simdutil/cpuid.hpp` and
`include/simdutil/allocator.hpp`, followed by theorems about the embedded
functions.

Conventions of the embedding

* A C++ `int` is an `Int` kept in the range `[-2^31, 2^31)`; `toInt` is the
  wrap-around conversion to `int`, `toUnsigned` is `static_cast<unsigned int>`.
* The `cpuid` instruction is an oracle (`Hardware`): the real processor or a
  test double.  Every function that issues queries runs in the monad `M`, which
  records the issued queries in order.
* A `char` buffer is a list of bytes (`Nat` below 256); an `int` store through a
  reinterpreted `char*` writes four bytes, least significant first (x86).
* Indexing a `std::array<int, 4>` outside `0..3` and shifting by 32 or more are
  undefined in C++; the embedding is total there, and no theorem speaks about
  those inputs.
* The demonstration program grows two `std::vector`s; the heap (`Heap`) is an
  oracle for how far each can grow before `push_back` throws.
-/

namespace simdutil

/-! ## Machine integers -/

/-- Conversion of an integer to a C++ `int` (32-bit two's complement wrap). -/
def toInt (z : Int) : Int := (z + 2147483648) % 4294967296 - 2147483648

/-- Conversion `static_cast<unsigned int>(z)`: the value modulo `2^32`. -/
def toUnsigned (z : Int) : Nat := (z % 4294967296).toNat

/-- Bitwise `a & b` on two `int` operands (two's complement), result an `int`. -/
def intAnd (a b : Int) : Int := toInt ((toUnsigned a &&& toUnsigned b : Nat) : Int)

/-- Shift `a << n` evaluated in `int`. -/
def intShl (a : Int) (n : Nat) : Int := toInt (a * 2 ^ n)

/-! ## The identification query and its trace -/

/-- Values left in the four registers by one `cpuid` instruction. -/
structure Regs where
  eax : Int
  ebx : Int
  ecx : Int
  edx : Int
  deriving DecidableEq

/-- One issued identification query. -/
inductive Query where
  | leaf (eax : Int)
  | subleaf (eax ecx : Int)
  deriving DecidableEq

/-- The processor, or a test double replacing the raw query: `leaf` answers the
intrinsic `__cpuid`, `subleaf` answers `__cpuid_count` / `__cpuidex`. -/
structure Hardware where
  leaf : Int → Regs
  subleaf : Int → Int → Regs

/-- A computation that appends the queries it issues to a log. -/
def M (α : Type) : Type := List Query → α × List Query

instance : Monad M where
  pure a := fun log => (a, log)
  bind m f := fun log => f (m log).1 (m log).2

/-- Value returned by a computation started with an empty log. -/
def M.result {α : Type} (m : M α) : α := (m []).1

/-- Queries issued by a computation, in order. -/
def M.queries {α : Type} (m : M α) : List Query := (m []).2

/-- The four `int` words stored by a query: index 0 is EAX, 1 is EBX, 2 is ECX,
3 is EDX. -/
def Regs.words (r : Regs) : List Int := [toInt r.eax, toInt r.ebx, toInt r.ecx, toInt r.edx]

/-- Function `cpuid(cpuInfo, eax)`: fills the `std::array<int, 4>`. -/
def cpuid (hw : Hardware) (eax : Int) : M (List Int) :=
  fun log => ((hw.leaf eax).words, log ++ [Query.leaf eax])

/-- Function `cpuidex(cpuInfo, eax, ecx)`. -/
def cpuidex (hw : Hardware) (eax ecx : Int) : M (List Int) :=
  fun log => ((hw.subleaf eax ecx).words, log ++ [Query.subleaf eax ecx])

/-- Element access `cpuinfo[index]` of a `std::array<int, 4>`. -/
def at4 (cpuinfo : List Int) (index : Nat) : Int := cpuinfo.getD index 0

/-! ## Feature predicates (`cpuid.hpp`) -/

/-- Function `cpuidBit(eax, index, nBit)`. -/
def cpuidBit (hw : Hardware) (eax : Int) (index nBit : Nat) : M Bool := do
  let cpuinfo ← cpuid hw eax
  return intAnd (at4 cpuinfo index) (intShl 1 nBit) != 0

/-- Function `cpuidexBit(eax, ecx, index, nBit)`. -/
def cpuidexBit (hw : Hardware) (eax ecx : Int) (index nBit : Nat) : M Bool := do
  let cpuinfo ← cpuidex hw eax ecx
  return intAnd (at4 cpuinfo index) (intShl 1 nBit) != 0

def isMmxAvailable (hw : Hardware) : M Bool := cpuidBit hw 1 3 23
def isSseAvailable (hw : Hardware) : M Bool := cpuidBit hw 1 3 25
def isSse2Available (hw : Hardware) : M Bool := cpuidBit hw 1 3 26
def isSse3Available (hw : Hardware) : M Bool := cpuidBit hw 1 2 0
def isSsse3Available (hw : Hardware) : M Bool := cpuidBit hw 1 2 9
def isSse41Available (hw : Hardware) : M Bool := cpuidBit hw 1 2 19
def isSse42Available (hw : Hardware) : M Bool := cpuidBit hw 1 2 20

/-- Function `isSse4aAvailable`: the only predicate that checks the extended
leaf range first. -/
def isSse4aAvailable (hw : Hardware) : M Bool := do
  let cpuinfo ← cpuid hw (toInt 0x80000000)
  if toUnsigned (at4 cpuinfo 0) < 0x80000001 then
    return false
  else
    cpuidBit hw (toInt 0x80000001) 2 6

def isAvxAvailable (hw : Hardware) : M Bool := cpuidBit hw 1 2 28
def isAvx2Available (hw : Hardware) : M Bool := cpuidBit hw 7 1 5
def isFmaAvailable (hw : Hardware) : M Bool := cpuidBit hw 1 2 12
def isAvx512FAvailable (hw : Hardware) : M Bool := cpuidBit hw 7 1 16
def isAvx512BwAvailable (hw : Hardware) : M Bool := cpuidBit hw 7 1 30
def isAvx512CdAvailable (hw : Hardware) : M Bool := cpuidBit hw 7 1 28
def isAvx512DqAvailable (hw : Hardware) : M Bool := cpuidBit hw 7 1 17
def isAvx512ErAvailable (hw : Hardware) : M Bool := cpuidBit hw 7 1 27
def isAvx512Ifma52Available (hw : Hardware) : M Bool := cpuidBit hw 7 1 21
def isAvx512PfAvailable (hw : Hardware) : M Bool := cpuidBit hw 7 1 26
def isAvx512VlAvailable (hw : Hardware) : M Bool := cpuidBit hw 7 1 31
def isAvx512_4fmapsAvailable (hw : Hardware) : M Bool := cpuidBit hw 7 3 2
def isAvx512_4vnniwAvailable (hw : Hardware) : M Bool := cpuidBit hw 7 3 3
def isAvx512BitalgAvailable (hw : Hardware) : M Bool := cpuidBit hw 7 2 12
def isAvx512VpopcntdqAvailable (hw : Hardware) : M Bool := cpuidBit hw 7 2 14
def isAvx512VbmiAvailable (hw : Hardware) : M Bool := cpuidBit hw 7 2 1
def isAvx512Vbmi2Available (hw : Hardware) : M Bool := cpuidBit hw 7 2 6
def isAvx512VnniAvailable (hw : Hardware) : M Bool := cpuidBit hw 7 2 6

/-- Bit `nBit` of word `index` of a stored register tuple, read from the
unsigned 32-bit pattern of the word. -/
def bitAt (cpuinfo : List Int) (index nBit : Nat) : Bool :=
  (toUnsigned (at4 cpuinfo index)).testBit nBit

/-- Register selected by a word index: 0 is EAX, 1 is EBX, 2 is ECX, 3 is EDX. -/
def Regs.word (r : Regs) : Nat → Int
  | 0 => r.eax
  | 1 => r.ebx
  | 2 => r.ecx
  | _ => r.edx

/-- Bit `nBit` of the register with word index `index`. -/
def Regs.bit (r : Regs) (index nBit : Nat) : Bool := (toUnsigned (r.word index)).testBit nBit

/-- The 32-bit word `w` with bit `nBit` set to `b` and every other bit kept. -/
def forceWordBit (w : Int) (nBit : Nat) (b : Bool) : Int :=
  if (toUnsigned w).testBit nBit = b then (toUnsigned w : Int)
  else ((toUnsigned w ^^^ 2 ^ nBit : Nat) : Int)

/-- Register tuple with bit `nBit` of word `index` set to `b`. -/
def Regs.forceBit (r : Regs) (index nBit : Nat) (b : Bool) : Regs :=
  match index with
  | 0 => { r with eax := forceWordBit r.eax nBit b }
  | 1 => { r with ebx := forceWordBit r.ebx nBit b }
  | 2 => { r with ecx := forceWordBit r.ecx nBit b }
  | _ => { r with edx := forceWordBit r.edx nBit b }

/-- A test double built on `hw`: the plain query of leaf `eax` answers the tuple
of `hw` with one bit forced to `b`; every other query is answered by `hw`. -/
def forceBit (hw : Hardware) (eax : Int) (index nBit : Nat) (b : Bool) : Hardware :=
  { hw with leaf := fun e => if e = eax then (hw.leaf e).forceBit index nBit b else hw.leaf e }

/-- A feature predicate together with the coordinate it decodes. -/
structure Feature where
  pred : Hardware → M Bool
  eax : Int
  index : Nat
  nBit : Nat

/-- The header predicates that are a single `cpuidBit` call, each with the
coordinate written in its body. -/
def singleBitPredicates : List Feature :=
  [ ⟨isMmxAvailable, 1, 3, 23⟩, ⟨isSseAvailable, 1, 3, 25⟩, ⟨isSse2Available, 1, 3, 26⟩,
    ⟨isSse3Available, 1, 2, 0⟩, ⟨isSsse3Available, 1, 2, 9⟩, ⟨isSse41Available, 1, 2, 19⟩,
    ⟨isSse42Available, 1, 2, 20⟩, ⟨isAvxAvailable, 1, 2, 28⟩, ⟨isAvx2Available, 7, 1, 5⟩,
    ⟨isFmaAvailable, 1, 2, 12⟩, ⟨isAvx512FAvailable, 7, 1, 16⟩, ⟨isAvx512BwAvailable, 7, 1, 30⟩,
    ⟨isAvx512CdAvailable, 7, 1, 28⟩, ⟨isAvx512DqAvailable, 7, 1, 17⟩,
    ⟨isAvx512ErAvailable, 7, 1, 27⟩, ⟨isAvx512Ifma52Available, 7, 1, 21⟩,
    ⟨isAvx512PfAvailable, 7, 1, 26⟩, ⟨isAvx512VlAvailable, 7, 1, 31⟩,
    ⟨isAvx512_4fmapsAvailable, 7, 3, 2⟩, ⟨isAvx512_4vnniwAvailable, 7, 3, 3⟩,
    ⟨isAvx512BitalgAvailable, 7, 2, 12⟩, ⟨isAvx512VpopcntdqAvailable, 7, 2, 14⟩,
    ⟨isAvx512VbmiAvailable, 7, 2, 1⟩, ⟨isAvx512Vbmi2Available, 7, 2, 6⟩,
    ⟨isAvx512VnniAvailable, 7, 2, 6⟩ ]

/-- A test double: every plain query answers `r`, every sub-leaf query answers
zeros. -/
def constHardware (r : Regs) : Hardware :=
  { leaf := fun _ => r, subleaf := fun _ _ => ⟨0, 0, 0, 0⟩ }


/-! ## Cache geometry (`cpuid.hpp`) -/

/-- Function `getL2CacheSize(cacheSize, cacheLineSize)`: the pair of values left
in the two reference parameters.  Both comparisons and both masks have an
unsigned operand, so the `int` word is converted to `unsigned int` first; the
results are converted back to `int` by the assignments. -/
def getL2CacheSize (hw : Hardware) : M (Int × Int) := do
  let cpuInfo ← cpuid hw (toInt 0x80000000)
  if toUnsigned (at4 cpuInfo 0) < 0x80000006 then
    return (-1, -1)
  else
    let cpuInfo ← cpuid hw (toInt 0x80000006)
    let cacheSize := toInt (((toUnsigned (at4 cpuInfo 2) &&& 0xffff0000) >>> 6 : Nat) : Int)
    let cacheLineSize := toInt ((toUnsigned (at4 cpuInfo 2) &&& 0xff : Nat) : Int)
    return (cacheSize, cacheLineSize)

/-! ## Vendor and brand strings (`cpuid.hpp`) -/

/-- The four bytes of an `int` in memory, least significant first. -/
def intBytes (v : Int) : List Nat :=
  [toUnsigned v % 256, toUnsigned v / 256 % 256, toUnsigned v / 65536 % 256,
    toUnsigned v / 16777216 % 256]

/-- Overwrite the bytes of `buf` from byte offset `off` on with `bs` (the writes
of the header all stay inside their buffers). -/
def writeBytes (buf : List Nat) (off : Nat) (bs : List Nat) : List Nat :=
  buf.take off ++ bs ++ buf.drop (off + bs.length)

/-- Store `p[i] = v` through `p = reinterpret_cast<int*>(buf)`. -/
def storeInt (buf : List Nat) (i : Nat) (v : Int) : List Nat :=
  writeBytes buf (4 * i) (intBytes v)

/-- Call `std::copy(std::begin(cpuinfo), std::end(cpuinfo), &p[i])` with
`p = reinterpret_cast<int*>(buf)`. -/
def copyInts (buf : List Nat) (i : Nat) : List Int → List Nat
  | [] => buf
  | v :: vs => copyInts (storeInt buf i v) (i + 1) vs

/-- Construction `std::string{ buf.data() }`: the bytes before the first NUL. -/
def cString (buf : List Nat) : List Nat := buf.takeWhile (fun b => b != 0)

/-- Function `copyCpuVendorId(vendorId)`, `char*` overload: the buffer after the
three stores. -/
def copyCpuVendorId (hw : Hardware) (vendorId : List Nat) : M (List Nat) := do
  let cpuinfo ← cpuid hw 0
  let p := vendorId
  let p := storeInt p 0 (at4 cpuinfo 1)
  let p := storeInt p 1 (at4 cpuinfo 3)
  let p := storeInt p 2 (at4 cpuinfo 2)
  return p

/-- Function `getCpuVendorId`: the bytes of the returned `std::string`. -/
def getCpuVendorId (hw : Hardware) : M (List Nat) := do
  let vendorId := List.replicate 32 0
  let vendorId ← copyCpuVendorId hw vendorId
  return cString vendorId

/-- Function `copyCpuBrandString(dst)`, `char*` overload: the buffer afterwards.
The literal `0x80000004` is an `unsigned int`, so the comparison is unsigned. -/
def copyCpuBrandString (hw : Hardware) (dst : List Nat) : M (List Nat) := do
  let cpuinfo ← cpuid hw (toInt 0x80000000)
  if toUnsigned (at4 cpuinfo 0) ≥ 0x80000004 then
    return dst.set 0 0
  else
    let p := dst
    let cpuinfo ← cpuid hw (toInt 0x80000002)
    let p := copyInts p 0 cpuinfo
    let cpuinfo ← cpuid hw (toInt 0x80000003)
    let p := copyInts p cpuinfo.length cpuinfo
    let cpuinfo ← cpuid hw (toInt 0x80000004)
    let p := copyInts p (cpuinfo.length * 2) cpuinfo
    return p

/-- Function `getCpuBrandString`: the bytes of the returned `std::string`.  The
body fills its 64-byte buffer with `copyCpuVendorId`. -/
def getCpuBrandString (hw : Hardware) : M (List Nat) := do
  let brandStringArray := List.replicate 64 0
  let brandStringArray ← copyCpuVendorId hw brandStringArray
  return cString brandStringArray

/-! ## Aligned allocator (`allocator.hpp`) -/

/-- An element type as the allocator sees it: its `sizeof`. -/
structure CType where
  sizeOf : Nat
  deriving DecidableEq

/-- The preprocessor branch of `alignedMalloc` chosen at build time: C++17
`std::aligned_alloc`, MSVC / MinGW `_aligned_malloc`, or `posix_memalign`. -/
inductive Branch where
  | cxx17
  | msvc
  | posix
  deriving DecidableEq

/-- The build target with its allocation primitives.  A pointer is its numeric
address and `0` is the null pointer; each primitive is an oracle for the outcome
of one call.  `posix_memalign` answers its status code and the value left in the
out-parameter. -/
structure Platform where
  branch : Branch
  sizeBits : Nat
  aligned_alloc : (alignment size : Nat) → Nat
  aligned_malloc : (size alignment : Nat) → Nat
  posix_memalign : (alignment size : Nat) → Int × Nat

/-- Function `alignedMalloc<T>(nBytes, alignment)`. -/
def alignedMalloc (pf : Platform) (nBytes alignment : Nat) : Nat :=
  match pf.branch with
  | Branch.cxx17 => pf.aligned_alloc alignment nBytes
  | Branch.msvc => pf.aligned_malloc nBytes alignment
  | Branch.posix =>
    if (pf.posix_memalign alignment nBytes).1 = 0 then (pf.posix_memalign alignment nBytes).2
    else 0

/-- Function `alignedAllocArray<T>(size, alignment)`: the product is formed in
`std::size_t`. -/
def alignedAllocArray (pf : Platform) (T : CType) (size alignment : Nat) : Nat :=
  alignedMalloc pf (size * T.sizeOf % 2 ^ pf.sizeBits) alignment

/-- Class template `AlignedAllocator<T, kAlignment>`: it has no data members. -/
structure AlignedAllocator (T : CType) (kAlignment : Nat) where

/-- Exceptions thrown by the header. -/
inductive Exception where
  | bad_alloc
  deriving DecidableEq

/-- Member `AlignedAllocator::allocate(n)`. -/
def AlignedAllocator.allocate (pf : Platform) {T : CType} {kAlignment : Nat}
    (_self : AlignedAllocator T kAlignment) (n : Nat) : Except Exception Nat :=
  let p := alignedAllocArray pf T n kAlignment
  if p = 0 then throw Exception.bad_alloc else pure p

/-- Function `operator==` on two allocators. -/
def operatorEq {T U : CType} {kAlignment1 kAlignment2 : Nat}
    (_lhs : AlignedAllocator T kAlignment1) (_rhs : AlignedAllocator U kAlignment2) : Bool :=
  kAlignment1 == kAlignment2

/-- Function `operator!=` on two allocators. -/
def operatorNe {T U : CType} {kAlignment1 kAlignment2 : Nat}
    (lhs : AlignedAllocator T kAlignment1) (rhs : AlignedAllocator U kAlignment2) : Bool :=
  !(operatorEq lhs rhs)

/-! ## Notions used to state the properties -/

/-- Highest extended leaf reported by leaf `0x80000000`: EAX as unsigned. -/
def highestExtendedLeaf (hw : Hardware) : Nat := toUnsigned (hw.leaf (toInt 0x80000000)).eax

/-- The byte values of an ASCII text. -/
def asciiBytes (s : String) : List Nat := s.toList.map Char.toNat

/-- The raw 12-byte vendor decode of a leaf 0 tuple: the bytes of EBX, then EDX,
then ECX, each least significant byte first. -/
def vendorDecode (r : Regs) : List Nat := intBytes r.ebx ++ intBytes r.edx ++ intBytes r.ecx

/-- The 16 bytes of one tuple: EAX, EBX, ECX, EDX, each least significant byte
first. -/
def Regs.bytes (r : Regs) : List Nat :=
  intBytes r.eax ++ intBytes r.ebx ++ intBytes r.ecx ++ intBytes r.edx

/-- The brand string as the specification describes it: the NUL-terminated text
in the 48 bytes of leaves `0x80000002`, `0x80000003`, `0x80000004`. -/
def brandStringSpec (hw : Hardware) : List Nat :=
  cString ((hw.leaf (toInt 0x80000002)).bytes ++ (hw.leaf (toInt 0x80000003)).bytes
    ++ (hw.leaf (toInt 0x80000004)).bytes ++ [0])

/-- The platform primitive reports failure for this request. -/
def primitiveFails (pf : Platform) (nBytes alignment : Nat) : Bool :=
  match pf.branch with
  | Branch.cxx17 => pf.aligned_alloc alignment nBytes == 0
  | Branch.msvc => pf.aligned_malloc nBytes alignment == 0
  | Branch.posix => (pf.posix_memalign alignment nBytes).1 != 0

/-! ## Test doubles -/

/-- A test double answering plain queries from a table keyed by the unsigned
leaf number; leaves missing from the table and all sub-leaf queries answer
zeros. -/
def tableHardware (table : List (Nat × Regs)) : Hardware :=
  { leaf := fun eax => (table.lookup (toUnsigned eax)).getD ⟨0, 0, 0, 0⟩,
    subleaf := fun _ _ => ⟨0, 0, 0, 0⟩ }

/-- A processor reporting only AVX-512VL: bit 31 of EBX of every plain query. -/
def hwOnlyBit31 : Hardware := constHardware ⟨0, 0x80000000, 0, 0⟩

/-- An Intel part without extended leaves beyond `0x80000000`. -/
def hwIntelNoExt : Hardware :=
  tableHardware [(0, ⟨0x16, 0x756e6547, 0x6c65746e, 0x49656e69⟩),
    (0x80000000, ⟨0x80000000, 0, 0, 0⟩)]

/-- An Intel part with extended leaves up to `0x80000008`, L2 descriptor
`0x01234567` and the brand string "SimdUtil Test CPU @ 1.00GHz". -/
def hwIntelExt : Hardware :=
  tableHardware [(0, ⟨0x16, 0x756e6547, 0x6c65746e, 0x49656e69⟩),
    (0x80000000, ⟨0x80000008, 0, 0, 0⟩),
    (0x80000002, ⟨0x646d6953, 0x6c697455, 0x73655420, 0x50432074⟩),
    (0x80000003, ⟨0x20402055, 0x30302e31, 0x007a4847, 0⟩),
    (0x80000004, ⟨0, 0, 0, 0⟩),
    (0x80000006, ⟨0, 0, 0x01234567, 0⟩)]

/-- An AMD part. -/
def hwAmd : Hardware :=
  tableHardware [(0, ⟨0x10, 0x68747541, 0x444d4163, 0x69746e65⟩),
    (0x80000000, ⟨0x8000001f, 0, 0, 0⟩)]

/-- A test double whose vendor words hold a NUL byte: EDX is "ine" followed by
NUL. -/
def hwNulVendor : Hardware :=
  tableHardware [(0, ⟨0x16, 0x756e6547, 0x6c65746e, 0x00656e69⟩)]

/-- A POSIX target with 64-bit `std::size_t` whose `posix_memalign` fails with
`ENOMEM` for requests above 4096 bytes (leaving a stale value in the
out-parameter) and otherwise answers the address `0x10000`. -/
def pfPosix : Platform :=
  { branch := Branch.posix, sizeBits := 64,
    aligned_alloc := fun _ _ => 0, aligned_malloc := fun _ _ => 0,
    posix_memalign := fun _ size => if size ≤ 4096 then (0, 0x10000) else (12, 0xdead) }

/-- Element type `float`. -/
def cFloat : CType := ⟨4⟩

/-! ## Notions for the allocator properties -/

/-- The alignment is a power of two. -/
def isPowerOfTwo (a : Nat) : Bool := a != 0 && a &&& (a - 1) == 0

/-- Postcondition of the platform primitive for one request, `blockSize p` being
the size of the block the heap holds at address `p`: on success the address is a
multiple of the alignment and the block has at least the requested size. -/
def primitivePost (pf : Platform) (blockSize : Nat → Nat) (nBytes alignment : Nat) : Bool :=
  match pf.branch with
  | Branch.cxx17 =>
    pf.aligned_alloc alignment nBytes == 0 ||
      (pf.aligned_alloc alignment nBytes % alignment == 0 &&
        decide (nBytes ≤ blockSize (pf.aligned_alloc alignment nBytes)))
  | Branch.msvc =>
    pf.aligned_malloc nBytes alignment == 0 ||
      (pf.aligned_malloc nBytes alignment % alignment == 0 &&
        decide (nBytes ≤ blockSize (pf.aligned_malloc nBytes alignment)))
  | Branch.posix =>
    (pf.posix_memalign alignment nBytes).1 != 0 ||
      ((pf.posix_memalign alignment nBytes).2 % alignment == 0 &&
        decide (nBytes ≤ blockSize (pf.posix_memalign alignment nBytes).2))

/-- The primitive honours its own contract for one request: for a power-of-two
alignment and a positive size its postcondition holds. -/
def honoursContract (pf : Platform) (blockSize : Nat → Nat) (nBytes alignment : Nat) : Prop :=
  isPowerOfTwo alignment = true → 0 < nBytes → primitivePost pf blockSize nBytes alignment = true

/-- An MSVC target with 32-bit `std::size_t` whose `_aligned_malloc` answers the
address `0x20000` for requests of at most 4096 bytes and null otherwise. -/
def pfMsvc32 : Platform :=
  { branch := Branch.msvc, sizeBits := 32,
    aligned_alloc := fun _ _ => 0,
    aligned_malloc := fun size _ => if size ≤ 4096 then 0x20000 else 0,
    posix_memalign := fun _ _ => (22, 0) }

/-- Element type `double`. -/
def cDouble : CType := ⟨8⟩

/-- A processor whose leaf 7 plain query reports only ECX bit 11 (AVX512_VNNI in
the published layout). -/
def hwVnniOnly : Hardware :=
  tableHardware [(0, ⟨0x16, 0x756e6547, 0x6c65746e, 0x49656e69⟩), (7, ⟨0, 0, 0x800, 0⟩)]

/-- A processor whose leaf 7 plain query reports only ECX bit 6 (AVX512_VBMI2 in
the published layout). -/
def hwVbmi2Only : Hardware :=
  tableHardware [(0, ⟨0x16, 0x756e6547, 0x6c65746e, 0x49656e69⟩), (7, ⟨0, 0, 0x40, 0⟩)]

/-- A processor whose leaf 7 plain query reports only EDX bit 2 (AVX512_4VNNIW
in the published layout). -/
def hw4vnniwOnly : Hardware :=
  tableHardware [(0, ⟨0x16, 0x756e6547, 0x6c65746e, 0x49656e69⟩), (7, ⟨0, 0, 0, 4⟩)]

/-- A processor whose leaf 7 plain query reports only EDX bit 3 (AVX512_4FMAPS
in the published layout). -/
def hw4fmapsOnly : Hardware :=
  tableHardware [(0, ⟨0x16, 0x756e6547, 0x6c65746e, 0x49656e69⟩), (7, ⟨0, 0, 0, 8⟩)]

/-- An AMD part with extended leaves up to `0x8000001f` reporting SSE4a: ECX
bit 6 of leaf `0x80000001`. -/
def hwAmdSse4a : Hardware :=
  tableHardware [(0, ⟨0x10, 0x68747541, 0x444d4163, 0x69746e65⟩),
    (0x80000000, ⟨0x8000001f, 0, 0, 0⟩), (0x80000001, ⟨0, 0, 0x40, 0⟩)]

/-- A test double without extended leaves whose plain queries all answer ECX
bit 6 set, except leaf `0x80000000`, which reports itself as the highest. -/
def hwNoExtAllBit6 : Hardware :=
  { leaf := fun eax => if eax = toInt 0x80000000 then ⟨0x80000000, 0, 0, 0⟩ else ⟨0, 0, 0x40, 0⟩,
    subleaf := fun _ _ => ⟨0, 0, 0, 0⟩ }

/-- A processor with extended leaves up to `0x80000006` whose L2 descriptor has
every bit set, bit 31 included. -/
def hwL2AllOnes : Hardware :=
  tableHardware [(0, ⟨0x16, 0x756e6547, 0x6c65746e, 0x49656e69⟩),
    (0x80000000, ⟨0x80000006, 0, 0, 0⟩), (0x80000006, ⟨0, 0, 0xffffffff, 0⟩)]

/-! ## The demonstration program (`others/MsdnCpuId/main.cpp`) -/

/-- Conversion of an `int` to `std::bitset<32>`: the low 32 bits of the value.
The bitset is held as the number with those bits. -/
def bitset32 (v : Int) : Nat := toUnsigned v

/-- The loop body `cpuidex(cpui, i, 0); v.push_back(cpui);` run `n` times with
the counter starting at `i` and incremented after each run. -/
def captureN (hw : Hardware) : Nat → Int → M (List (List Int))
  | 0, _ => pure []
  | n + 1, i => do
    let cpui ← cpuidex hw i 0
    let rest ← captureN hw n (i + 1)
    return cpui :: rest

/-- The heap as the constructor meets it: the largest number of tuples to which
`push_back` can grow `data_`, and after that `extdata_`, before it throws
(`std::length_error` above `max_size()`, `std::bad_alloc` when memory is
exhausted). -/
structure Heap where
  dataCapacity : Nat
  extdataCapacity : Nat

/-- Loop `for (int i = first; i <= last; ++i) { cpuidex(cpui, i, 0);
v.push_back(cpui); }` on an empty vector that can grow to `capacity` tuples: the
body runs for `first, ..., last`, that is `last + 1 - first` times.  When `last`
is the largest `int` the test `i <= last` never fails and the increment
overflows; when the loop needs more than `capacity` tuples a `push_back` throws
and the exception leaves the constructor.  In both cases the loop has no normal
exit: the answer is `none`. -/
def captureLeaves (hw : Hardware) (capacity : Nat) (first last : Int) :
    M (Option (List (List Int))) :=
  if first ≤ last ∧ last = 2147483647 then pure none
  else if capacity < (last + 1 - first).toNat then pure none
  else do
    let v ← captureN hw (last + 1 - first).toNat first
    return some v

/-- Class `InstructionSet_Internal`: the data members. -/
structure InstructionSet_Internal where
  nIds_ : Int
  nExIds_ : Int
  vendor_ : List Nat
  brand_ : List Nat
  isIntel_ : Bool
  isAMD_ : Bool
  f_1_ECX_ : Nat
  f_1_EDX_ : Nat
  f_7_EBX_ : Nat
  f_7_ECX_ : Nat
  f_7_EDX_ : Nat
  f_81_ECX_ : Nat
  f_81_EDX_ : Nat
  data_ : List (List Int)
  extdata_ : List (List Int)
  deriving DecidableEq

/-- Constructor block "Capture vendor string": the three stores into the zeroed
32-byte buffer and the string read back; `none` when `data_[0]` is out of
bounds. -/
def captureVendor (data_ : List (List Int)) : Option (List Nat) := do
  let vendor := List.replicate 0x20 0
  let d ← data_[0]?
  let vendor := writeBytes vendor 0 (intBytes (at4 d 1))
  let d ← data_[0]?
  let vendor := writeBytes vendor 4 (intBytes (at4 d 3))
  let d ← data_[0]?
  let vendor := writeBytes vendor 8 (intBytes (at4 d 2))
  pure (cString vendor)

/-- Constructor block "load bitset with flags for function 0x00000001": the new
`(f_1_ECX_, f_1_EDX_)`. -/
def loadLeaf1 (nIds_ : Int) (data_ : List (List Int)) : Option (Nat × Nat) :=
  if nIds_ ≥ 1 then do
    let d ← data_[1]?
    let f_1_ECX_ := bitset32 (at4 d 2)
    let d ← data_[1]?
    let f_1_EDX_ := bitset32 (at4 d 3)
    pure (f_1_ECX_, f_1_EDX_)
  else pure (0, 0)

/-- Constructor block "load bitset with flags for function 0x00000007": the new
`(f_7_EBX_, f_7_ECX_, f_7_EDX_)`. -/
def loadLeaf7 (nIds_ : Int) (data_ : List (List Int)) : Option (Nat × Nat × Nat) :=
  if nIds_ ≥ 7 then do
    let d ← data_[7]?
    let f_7_EBX_ := bitset32 (at4 d 1)
    let d ← data_[7]?
    let f_7_ECX_ := bitset32 (at4 d 2)
    let d ← data_[7]?
    let f_7_EDX_ := bitset32 (at4 d 3)
    pure (f_7_EBX_, f_7_ECX_, f_7_EDX_)
  else pure (0, 0, 0)

/-- Constructor block "load bitset with flags for function 0x80000001": the new
`(f_81_ECX_, f_81_EDX_)`. -/
def loadLeaf81 (nExIds_ : Int) (extdata_ : List (List Int)) : Option (Nat × Nat) :=
  if toUnsigned nExIds_ ≥ 0x80000001 then do
    let d ← extdata_[1]?
    let f_81_ECX_ := bitset32 (at4 d 2)
    let d ← extdata_[1]?
    let f_81_EDX_ := bitset32 (at4 d 3)
    pure (f_81_ECX_, f_81_EDX_)
  else pure (0, 0)

/-- Constructor block "Interpret CPU brand string if reported": the new
`brand_`; `sizeof(extdata_[0])` is 16 bytes, four `int`s. -/
def captureBrand (nExIds_ : Int) (extdata_ : List (List Int)) : Option (List Nat) :=
  if toUnsigned nExIds_ ≥ 0x80000004 then do
    let brand := List.replicate 0x40 0
    let d ← extdata_[2]?
    let brand := copyInts brand 0 d
    let d ← extdata_[3]?
    let brand := copyInts brand 4 d
    let d ← extdata_[4]?
    let brand := copyInts brand 8 d
    pure (cString brand)
  else pure []

/-- Constructor `InstructionSet_Internal::InstructionSet_Internal()`: the object
it builds, or `none` when a capture loop has no normal exit (its bound is the
largest `int`, or a `push_back` throws) or an indexed access is out of bounds. -/
def InstructionSet_Internal.new (hw : Hardware) (heap : Heap) :
    M (Option InstructionSet_Internal) := do
  let cpui ← cpuid hw 0
  let nIds_ := at4 cpui 0
  let data ← captureLeaves hw heap.dataCapacity 0 nIds_
  match data with
  | none => return none
  | some data_ =>
    match captureVendor data_ with
    | none => return none
    | some vendor_ =>
      let isIntel_ := vendor_ == asciiBytes "GenuineIntel"
      let isAMD_ := !isIntel_ && vendor_ == asciiBytes "AuthenticAMD"
      match loadLeaf1 nIds_ data_ with
      | none => return none
      | some f1 =>
        match loadLeaf7 nIds_ data_ with
        | none => return none
        | some f7 => do
          let cpui ← cpuid hw (toInt 0x80000000)
          let nExIds_ := at4 cpui 0
          let ext ← captureLeaves hw heap.extdataCapacity (toInt 0x80000000) nExIds_
          match ext with
          | none => return none
          | some extdata_ =>
            match loadLeaf81 nExIds_ extdata_ with
            | none => return none
            | some f81 =>
              match captureBrand nExIds_ extdata_ with
              | none => return none
              | some brand_ =>
                return some
                  { nIds_ := nIds_, nExIds_ := nExIds_, vendor_ := vendor_, brand_ := brand_,
                    isIntel_ := isIntel_, isAMD_ := isAMD_,
                    f_1_ECX_ := f1.1, f_1_EDX_ := f1.2,
                    f_7_EBX_ := f7.1, f_7_ECX_ := f7.2.1, f_7_EDX_ := f7.2.2,
                    f_81_ECX_ := f81.1, f_81_EDX_ := f81.2,
                    data_ := data_, extdata_ := extdata_ }

/-! The getters of class `InstructionSet` read the object `CPU_Rep` built by the
constructor at load time. -/

def InstructionSet.Vendor (CPU_Rep : InstructionSet_Internal) : List Nat := CPU_Rep.vendor_
def InstructionSet.Brand (CPU_Rep : InstructionSet_Internal) : List Nat := CPU_Rep.brand_
def InstructionSet.SSE3 (CPU_Rep : InstructionSet_Internal) : Bool := CPU_Rep.f_1_ECX_.testBit 0
def InstructionSet.SSSE3 (CPU_Rep : InstructionSet_Internal) : Bool := CPU_Rep.f_1_ECX_.testBit 9
def InstructionSet.FMA (CPU_Rep : InstructionSet_Internal) : Bool := CPU_Rep.f_1_ECX_.testBit 12
def InstructionSet.SSE41 (CPU_Rep : InstructionSet_Internal) : Bool := CPU_Rep.f_1_ECX_.testBit 19
def InstructionSet.SSE42 (CPU_Rep : InstructionSet_Internal) : Bool := CPU_Rep.f_1_ECX_.testBit 20
def InstructionSet.AVX (CPU_Rep : InstructionSet_Internal) : Bool := CPU_Rep.f_1_ECX_.testBit 28
def InstructionSet.MMX (CPU_Rep : InstructionSet_Internal) : Bool := CPU_Rep.f_1_EDX_.testBit 23
def InstructionSet.SSE (CPU_Rep : InstructionSet_Internal) : Bool := CPU_Rep.f_1_EDX_.testBit 25
def InstructionSet.SSE2 (CPU_Rep : InstructionSet_Internal) : Bool := CPU_Rep.f_1_EDX_.testBit 26
def InstructionSet.AVX2 (CPU_Rep : InstructionSet_Internal) : Bool := CPU_Rep.f_7_EBX_.testBit 5
def InstructionSet.AVX512F (CPU_Rep : InstructionSet_Internal) : Bool :=
  CPU_Rep.f_7_EBX_.testBit 16
def InstructionSet.AVX512DQ (CPU_Rep : InstructionSet_Internal) : Bool :=
  CPU_Rep.f_7_EBX_.testBit 17
def InstructionSet.AVX512IFMA (CPU_Rep : InstructionSet_Internal) : Bool :=
  CPU_Rep.f_7_EBX_.testBit 21
def InstructionSet.AVX512PF (CPU_Rep : InstructionSet_Internal) : Bool :=
  CPU_Rep.f_7_EBX_.testBit 26
def InstructionSet.AVX512ER (CPU_Rep : InstructionSet_Internal) : Bool :=
  CPU_Rep.f_7_EBX_.testBit 27
def InstructionSet.AVX512CD (CPU_Rep : InstructionSet_Internal) : Bool :=
  CPU_Rep.f_7_EBX_.testBit 28
def InstructionSet.AVX512BW (CPU_Rep : InstructionSet_Internal) : Bool :=
  CPU_Rep.f_7_EBX_.testBit 30
def InstructionSet.AVX512VL (CPU_Rep : InstructionSet_Internal) : Bool :=
  CPU_Rep.f_7_EBX_.testBit 31
def InstructionSet.AVX512VBMI (CPU_Rep : InstructionSet_Internal) : Bool :=
  CPU_Rep.f_7_ECX_.testBit 1
def InstructionSet.AVX512VBMI2 (CPU_Rep : InstructionSet_Internal) : Bool :=
  CPU_Rep.f_7_ECX_.testBit 6
def InstructionSet.AVX512VNNI (CPU_Rep : InstructionSet_Internal) : Bool :=
  CPU_Rep.f_7_ECX_.testBit 11
def InstructionSet.AVX512BITALG (CPU_Rep : InstructionSet_Internal) : Bool :=
  CPU_Rep.f_7_ECX_.testBit 12
def InstructionSet.AVX512VPOPCNTDQ (CPU_Rep : InstructionSet_Internal) : Bool :=
  CPU_Rep.f_7_ECX_.testBit 14
def InstructionSet.AVX512_4VNNIW (CPU_Rep : InstructionSet_Internal) : Bool :=
  CPU_Rep.f_7_EDX_.testBit 2
def InstructionSet.AVX512_4FMAPS (CPU_Rep : InstructionSet_Internal) : Bool :=
  CPU_Rep.f_7_EDX_.testBit 3
def InstructionSet.SSE4a (CPU_Rep : InstructionSet_Internal) : Bool :=
  CPU_Rep.isAMD_ && CPU_Rep.f_81_ECX_.testBit 6

/-- Highest basic leaf as the demonstration program holds it: EAX of leaf 0 as an
`int`. -/
def highestBasicLeaf (hw : Hardware) : Int := toInt (hw.leaf 0).eax

/-- Highest extended leaf as the demonstration program holds it: EAX of leaf
`0x80000000` as an `int`. -/
def highestExtendedLeafInt (hw : Hardware) : Int := toInt (hw.leaf (toInt 0x80000000)).eax

/-- A test double answering the plain query of a leaf and its sub-leaf 0 query
alike, from a table keyed by the unsigned leaf number; everything else answers
zeros. -/
def mirrorHardware (table : List (Nat × Regs)) : Hardware :=
  { leaf := fun eax => (table.lookup (toUnsigned eax)).getD ⟨0, 0, 0, 0⟩,
    subleaf := fun eax ecx =>
      if ecx = 0 then (table.lookup (toUnsigned eax)).getD ⟨0, 0, 0, 0⟩ else ⟨0, 0, 0, 0⟩ }

/-- An Intel part with basic leaves up to 7 and extended leaves up to
`0x80000004`: SSE3 and AVX in leaf 1 ECX, MMX in leaf 1 EDX; AVX2, AVX512F and
AVX512VL in leaf 7 EBX, AVX512_VNNI (bit 11) in leaf 7 ECX, AVX512_4VNNIW (bit 2)
in leaf 7 EDX. -/
def hwDemo : Hardware :=
  mirrorHardware [(0, ⟨7, 0x756e6547, 0x6c65746e, 0x49656e69⟩),
    (1, ⟨0x000906ea, 0, 0x10000001, 0x00800000⟩),
    (7, ⟨0, 0x80010020, 0x800, 4⟩),
    (0x80000000, ⟨0x80000004, 0, 0, 0⟩),
    (0x80000002, ⟨0x646d6953, 0x6c697455, 0x73655420, 0x50432074⟩),
    (0x80000003, ⟨0x20402055, 0x30302e31, 0x007a4847, 0⟩),
    (0x80000004, ⟨0, 0, 0, 0⟩)]

/-- A test double whose leaf 0 reports the largest `int` as the highest basic
leaf. -/
def hwMaxBasic : Hardware :=
  mirrorHardware [(0, ⟨0x7fffffff, 0x756e6547, 0x6c65746e, 0x49656e69⟩),
    (0x80000000, ⟨0x80000004, 0, 0, 0⟩)]

/-- A processor with basic leaves up to 7 that answers zeros to leaf
`0x80000000`: the second capture loop then runs from the smallest `int` to 0 and
needs `2^31 + 1` tuples. -/
def hwZeroExt : Hardware :=
  mirrorHardware [(0, ⟨7, 0x756e6547, 0x6c65746e, 0x49656e69⟩),
    (1, ⟨0x000906ea, 0, 0x10000001, 0x00800000⟩),
    (7, ⟨0, 0x80010020, 0x800, 4⟩)]

/-- The heap of a 32-bit x86 target on which a vector of register tuples
(16 bytes each) holds at most `2^27 - 1` of them. -/
def heap32 : Heap := ⟨134217727, 134217727⟩

/-! ## Rebinding and conversion of allocators (`allocator.hpp`) -/

/-- Member `rebind<U>::other` of `AlignedAllocator<T, kAlignment>`. -/
abbrev AlignedAllocator.rebind_other (_T : CType) (kAlignment : Nat) (U : CType) : Type :=
  AlignedAllocator U kAlignment

/-- Converting copy constructor
`AlignedAllocator(const AlignedAllocator<U, kAlignment>&)` of
`AlignedAllocator<T, kAlignment>`. -/
def AlignedAllocator.ofOther {T U : CType} {kAlignment : Nat}
    (_other : AlignedAllocator U kAlignment) : AlignedAllocator T kAlignment :=
  ⟨⟩

/-- A test double whose leaf 0 EAX has bit 31 set: negative as an `int`. -/
def hwNegBasic : Hardware :=
  mirrorHardware [(0, ⟨0x80000007, 0x756e6547, 0x6c65746e, 0x49656e69⟩),
    (0x80000000, ⟨0x80000004, 0, 0, 0⟩)]

/-! ## Arithmetic facts about the machine-integer model -/

theorem toUnsigned_lt (z : Int) : toUnsigned z < 4294967296 := by
  unfold toUnsigned
  omega

theorem toUnsigned_toInt (z : Int) : toUnsigned (toInt z) = toUnsigned z := by
  unfold toUnsigned toInt
  omega

theorem toUnsigned_natCast (n : Nat) (h : n < 4294967296) : toUnsigned (n : Int) = n := by
  unfold toUnsigned
  omega

theorem toInt_natCast_eq_zero (n : Nat) (h : n < 4294967296) : toInt (n : Int) = 0 ↔ n = 0 := by
  unfold toInt
  omega

theorem toInt_natCast_small (n : Nat) (h : n < 2147483648) : toInt (n : Int) = n := by
  unfold toInt
  omega

theorem toUnsigned_intShl_one (n : Nat) (h : n < 32) : toUnsigned (intShl 1 n) = 2 ^ n := by
  have hp : (2 : Nat) ^ n < 4294967296 := by
    calc (2 : Nat) ^ n < 2 ^ 32 := Nat.pow_lt_pow_right (by decide) h
      _ = 4294967296 := by norm_num
  unfold intShl
  rw [toUnsigned_toInt, one_mul]
  have : ((2 : Int) ^ n) = ((2 ^ n : Nat) : Int) := by push_cast; rfl
  rw [this, toUnsigned_natCast _ hp]

theorem and_two_pow_eq_zero (x n : Nat) : x &&& 2 ^ n = 0 ↔ x.testBit n = false := by
  constructor
  · intro h
    have := congrArg (fun y => y.testBit n) h
    simpa [Nat.testBit_two_pow_self] using this
  · intro h
    apply Nat.eq_of_testBit_eq
    intro i
    rw [Nat.testBit_and, Nat.testBit_two_pow, Nat.zero_testBit]
    by_cases hi : n = i
    · subst hi; simp [h]
    · simp [hi]

theorem intAnd_shl_ne_zero (w : Int) (n : Nat) (h : n < 32) :
    (intAnd w (intShl 1 n) != 0) = (toUnsigned w).testBit n := by
  have hlt : toUnsigned w &&& 2 ^ n < 4294967296 :=
    lt_of_le_of_lt Nat.and_le_left (toUnsigned_lt w)
  unfold intAnd
  rw [toUnsigned_intShl_one n h]
  cases hb : (toUnsigned w).testBit n
  · have h0 := (and_two_pow_eq_zero (toUnsigned w) n).2 hb
    simp [h0, toInt]
  · have hne : toUnsigned w &&& 2 ^ n ≠ 0 := by
      intro h0
      rw [(and_two_pow_eq_zero _ _).1 h0] at hb
      exact Bool.noConfusion hb
    have : toInt ((toUnsigned w &&& 2 ^ n : Nat) : Int) ≠ 0 := by
      intro h0
      exact hne ((toInt_natCast_eq_zero _ hlt).1 h0)
    simpa using this

theorem cpuidBit_result (hw : Hardware) (eax : Int) (index nBit : Nat) (h : nBit < 32) :
    (cpuidBit hw eax index nBit).result = bitAt (cpuid hw eax).result index nBit := by
  simp only [cpuidBit, cpuid, M.result, bitAt, bind, pure]
  exact intAnd_shl_ne_zero _ nBit h

theorem cpuidexBit_result (hw : Hardware) (eax ecx : Int) (index nBit : Nat) (h : nBit < 32) :
    (cpuidexBit hw eax ecx index nBit).result = bitAt (cpuidex hw eax ecx).result index nBit := by
  simp only [cpuidexBit, cpuidex, M.result, bitAt, bind, pure]
  exact intAnd_shl_ne_zero _ nBit h

theorem toUnsigned_at4_words (r : Regs) (index : Nat) (h : index < 4) :
    toUnsigned (at4 r.words index) = toUnsigned (r.word index) := by
  interval_cases index <;> simp [at4, Regs.words, Regs.word, toUnsigned_toInt]

theorem bitAt_words (r : Regs) (index nBit : Nat) (h : index < 4) :
    bitAt r.words index nBit = r.bit index nBit := by
  unfold bitAt Regs.bit
  rw [toUnsigned_at4_words r index h]

theorem toUnsigned_natCast_mod (n : Nat) : toUnsigned (n : Int) = n % 2 ^ 32 := by
  unfold toUnsigned
  omega

theorem forceWordBit_testBit (w : Int) (nBit : Nat) (b : Bool) (h : nBit < 32) :
    (toUnsigned (forceWordBit w nBit b)).testBit nBit = b := by
  unfold forceWordBit
  split
  · next heq => rw [toUnsigned_natCast_mod, Nat.testBit_mod_two_pow]; simp [h, heq]
  · next hne =>
    rw [toUnsigned_natCast_mod, Nat.testBit_mod_two_pow, Nat.testBit_xor,
      Nat.testBit_two_pow_self]
    cases hb : (toUnsigned w).testBit nBit <;> cases b <;> simp_all

theorem forceBit_bit (r : Regs) (index nBit : Nat) (b : Bool) (hi : index < 4) (h : nBit < 32) :
    (r.forceBit index nBit b).bit index nBit = b := by
  interval_cases index <;> exact forceWordBit_testBit _ nBit b h

theorem cpuidBit_eq_bit (hw : Hardware) (eax : Int) (index nBit : Nat) (hi : index < 4)
    (h : nBit < 32) : (cpuidBit hw eax index nBit).result = (hw.leaf eax).bit index nBit := by
  rw [cpuidBit_result hw eax index nBit h]
  exact bitAt_words _ index nBit hi

theorem cpuidexBit_eq_bit (hw : Hardware) (eax ecx : Int) (index nBit : Nat) (hi : index < 4)
    (h : nBit < 32) :
    (cpuidexBit hw eax ecx index nBit).result = (hw.subleaf eax ecx).bit index nBit := by
  rw [cpuidexBit_result hw eax ecx index nBit h]
  exact bitAt_words _ index nBit hi

theorem cpuidBit_forceBit (hw : Hardware) (eax : Int) (index nBit : Nat) (b : Bool)
    (hi : index < 4) (h : nBit < 32) :
    (cpuidBit (forceBit hw eax index nBit b) eax index nBit).result = b := by
  rw [cpuidBit_eq_bit _ eax index nBit hi h]
  simp only [forceBit, if_true]
  exact forceBit_bit _ index nBit b hi h

/-- C1: `cpuidBit` and `cpuidexBit` test exactly one bit.  For every oracle, word
index in 0..3 and bit index in 0..31 (bit 31 included, where `1 << 31` wraps to the
most negative `int`), the result is true exactly when that bit of that register of
the queried tuple is 1.  Every header predicate that is a single `cpuidBit` call
returns the bit at its coordinate: true on a test double with the bit forced to 1,
false with the bit cleared. -/
theorem cpuidBit_tests_exactly_one_bit :
    (∀ (hw : Hardware) (eax : Int) (index nBit : Nat), index < 4 → nBit < 32 →
      ((cpuidBit hw eax index nBit).result = true ↔ (hw.leaf eax).bit index nBit = true)) ∧
    (∀ (hw : Hardware) (eax ecx : Int) (index nBit : Nat), index < 4 → nBit < 32 →
      ((cpuidexBit hw eax ecx index nBit).result = true
        ↔ (hw.subleaf eax ecx).bit index nBit = true)) ∧
    (∀ f ∈ singleBitPredicates, ∀ hw : Hardware,
      (f.pred hw).result = (hw.leaf f.eax).bit f.index f.nBit ∧
      (f.pred (forceBit hw f.eax f.index f.nBit true)).result = true ∧
      (f.pred (forceBit hw f.eax f.index f.nBit false)).result = false) := by
  refine ⟨?_, ?_, ?_⟩
  · intro hw eax index nBit hi h
    rw [cpuidBit_eq_bit hw eax index nBit hi h]
  · intro hw eax ecx index nBit hi h
    rw [cpuidexBit_eq_bit hw eax ecx index nBit hi h]
  · intro f hf hw
    simp only [singleBitPredicates, List.mem_cons, List.mem_singleton, List.not_mem_nil,
      or_false] at hf
    rcases hf with h | h | h | h | h | h | h | h | h | h | h | h | h | h | h | h | h | h | h
      | h | h | h | h | h | h <;> subst h <;>
    exact ⟨cpuidBit_eq_bit _ _ _ _ (by decide) (by decide),
      cpuidBit_forceBit _ _ _ _ _ (by decide) (by decide),
      cpuidBit_forceBit _ _ _ _ _ (by decide) (by decide)⟩

theorem cpuidBit_tests_exactly_one_bit_witness :
    (3 < 4 ∧ 31 < 32) ∧
    ((cpuidBit hwOnlyBit31 7 1 31).result = true ↔ (hwOnlyBit31.leaf 7).bit 1 31 = true) ∧
    (isAvx512VlAvailable hwOnlyBit31).result = true ∧
    (isAvx512BwAvailable hwOnlyBit31).result = false :=
  ⟨by decide, cpuidBit_tests_exactly_one_bit.1 hwOnlyBit31 7 1 31 (by decide) (by decide),
    by decide, by decide⟩

theorem highest_eq (hw : Hardware) :
    toUnsigned (at4 (hw.leaf (toInt 0x80000000)).words 0) = highestExtendedLeaf hw :=
  toUnsigned_at4_words _ 0 (by decide)

theorem getL2CacheSize_result (hw : Hardware) :
    (getL2CacheSize hw).result =
      if highestExtendedLeaf hw < 0x80000006 then (-1, -1)
      else (toInt (((toUnsigned (hw.leaf (toInt 0x80000006)).ecx &&& 0xffff0000) >>> 6 : Nat) : Int),
        toInt ((toUnsigned (hw.leaf (toInt 0x80000006)).ecx &&& 0xff : Nat) : Int)) := by
  simp only [getL2CacheSize, cpuid, M.result, bind, pure]
  rw [highest_eq, toUnsigned_at4_words _ 2 (by decide)]
  split <;> rfl

theorem cacheSize_small (u : Nat) : (u &&& 0xffff0000) >>> 6 < 2147483648 := by
  have h : u &&& 0xffff0000 ≤ 0xffff0000 := Nat.and_le_right
  rw [Nat.shiftRight_eq_div_pow]
  omega

theorem cacheLineSize_small (u : Nat) : u &&& 0xff < 2147483648 := by
  have h : u &&& 0xff ≤ 0xff := Nat.and_le_right
  omega

/-- C2: for every oracle whose leaf `0x80000000` reports a highest extended leaf
(EAX read as unsigned) below `0x80000006`, `getL2CacheSize` leaves `(-1, -1)` in
`(cacheSize, cacheLineSize)`. -/
theorem getL2CacheSize_sentinel (hw : Hardware) (h : highestExtendedLeaf hw < 0x80000006) :
    (getL2CacheSize hw).result = (-1, -1) := by
  rw [getL2CacheSize_result, if_pos h]

theorem getL2CacheSize_sentinel_witness :
    highestExtendedLeaf hwIntelNoExt < 0x80000006 ∧
      (getL2CacheSize hwIntelNoExt).result = (-1, -1) :=
  ⟨by decide, getL2CacheSize_sentinel hwIntelNoExt (by decide)⟩

/-- C3: for every oracle whose highest extended leaf is at least `0x80000006`,
`getL2CacheSize` returns `cacheSize = (ECX & 0xffff0000) >> 6` and
`cacheLineSize = ECX & 0xff`, ECX being word 2 of the leaf `0x80000006` tuple read
as unsigned; for `ECX = 0x01234567` these are `0x01230000 >> 6` and `0x67`. -/
theorem getL2CacheSize_decodes_ecx (hw : Hardware) (h : 0x80000006 ≤ highestExtendedLeaf hw) :
    (getL2CacheSize hw).result =
        ((((toUnsigned (hw.leaf (toInt 0x80000006)).ecx &&& 0xffff0000) >>> 6 : Nat) : Int),
          ((toUnsigned (hw.leaf (toInt 0x80000006)).ecx &&& 0xff : Nat) : Int)) ∧
      (toUnsigned (hw.leaf (toInt 0x80000006)).ecx = 0x01234567 →
        (getL2CacheSize hw).result = (((0x01230000 >>> 6 : Nat) : Int), 0x67)) := by
  have hres : (getL2CacheSize hw).result =
      ((((toUnsigned (hw.leaf (toInt 0x80000006)).ecx &&& 0xffff0000) >>> 6 : Nat) : Int),
        ((toUnsigned (hw.leaf (toInt 0x80000006)).ecx &&& 0xff : Nat) : Int)) := by
    rw [getL2CacheSize_result, if_neg (Nat.not_lt.mpr h),
      toInt_natCast_small _ (cacheSize_small _), toInt_natCast_small _ (cacheLineSize_small _)]
  refine ⟨hres, ?_⟩
  intro hecx
  rw [hres, hecx]
  decide

theorem getL2CacheSize_decodes_ecx_witness :
    0x80000006 ≤ highestExtendedLeaf hwIntelExt ∧
      toUnsigned (hwIntelExt.leaf (toInt 0x80000006)).ecx = 0x01234567 ∧
      (getL2CacheSize hwIntelExt).result = (((0x01230000 >>> 6 : Nat) : Int), 0x67) :=
  ⟨by decide, by decide,
    (getL2CacheSize_decodes_ecx hwIntelExt (by decide)).2 (by decide)⟩

/-! ## Strings -/

theorem intBytes_toInt (v : Int) : intBytes (toInt v) = intBytes v := by
  simp [intBytes, toUnsigned_toInt]

theorem intBytes_shape (v : Int) : ∃ a b c d, intBytes v = [a, b, c, d] :=
  ⟨_, _, _, _, rfl⟩

theorem copyCpuVendorId_result (hw : Hardware) (buf : List Nat) :
    (copyCpuVendorId hw buf).result = vendorDecode (hw.leaf 0) ++ buf.drop 12 := by
  simp only [copyCpuVendorId, cpuid, M.result, bind, pure, at4, Regs.words, vendorDecode,
    storeInt]
  simp only [List.getD_cons_succ, List.getD_cons_zero, intBytes_toInt]
  obtain ⟨a0, a1, a2, a3, ha⟩ := intBytes_shape (hw.leaf 0).ebx
  obtain ⟨b0, b1, b2, b3, hb⟩ := intBytes_shape (hw.leaf 0).edx
  obtain ⟨c0, c1, c2, c3, hc⟩ := intBytes_shape (hw.leaf 0).ecx
  rw [ha, hb, hc]
  simp [writeBytes]

theorem getCpuVendorId_result (hw : Hardware) :
    (getCpuVendorId hw).result = cString (vendorDecode (hw.leaf 0) ++ List.replicate 20 0) := by
  have h := copyCpuVendorId_result hw (List.replicate 32 0)
  simp only [getCpuVendorId, M.result, bind, pure] at h ⊢
  rw [h]
  rfl

theorem intBytes_toUnsigned (v : Int) : intBytes ((toUnsigned v : Nat) : Int) = intBytes v := by
  simp only [intBytes, toUnsigned_natCast _ (toUnsigned_lt v)]

theorem vendorDecode_of_words (r : Regs) (b d c : Nat) (hb : toUnsigned r.ebx = b)
    (hd : toUnsigned r.edx = d) (hc : toUnsigned r.ecx = c) :
    vendorDecode r = intBytes b ++ intBytes d ++ intBytes c := by
  subst hb hd hc
  simp only [vendorDecode, intBytes_toUnsigned]

/-- C4: `getCpuVendorId` assembles the vendor id from the leaf 0 tuple in the word
order EBX, EDX, ECX, least significant byte first: with
`EBX = 0x756e6547, EDX = 0x49656e69, ECX = 0x6c65746e` it returns exactly
"GenuineIntel", with `EBX = 0x68747541, EDX = 0x69746e65, ECX = 0x444d4163` exactly
"AuthenticAMD", whatever EAX holds. -/
theorem getCpuVendorId_known_vendors (hw : Hardware) :
    (toUnsigned (hw.leaf 0).ebx = 0x756e6547 → toUnsigned (hw.leaf 0).edx = 0x49656e69 →
      toUnsigned (hw.leaf 0).ecx = 0x6c65746e →
      (getCpuVendorId hw).result = asciiBytes "GenuineIntel") ∧
    (toUnsigned (hw.leaf 0).ebx = 0x68747541 → toUnsigned (hw.leaf 0).edx = 0x69746e65 →
      toUnsigned (hw.leaf 0).ecx = 0x444d4163 →
      (getCpuVendorId hw).result = asciiBytes "AuthenticAMD") := by
  constructor
  · intro hb hd hc
    rw [getCpuVendorId_result, vendorDecode_of_words _ _ _ _ hb hd hc]
    decide
  · intro hb hd hc
    rw [getCpuVendorId_result, vendorDecode_of_words _ _ _ _ hb hd hc]
    decide

theorem getCpuVendorId_known_vendors_witness :
    (getCpuVendorId hwIntelExt).result = asciiBytes "GenuineIntel" ∧
      (getCpuVendorId hwAmd).result = asciiBytes "AuthenticAMD" :=
  ⟨(getCpuVendorId_known_vendors hwIntelExt).1 (by decide) (by decide) (by decide),
    (getCpuVendorId_known_vendors hwAmd).2 (by decide) (by decide) (by decide)⟩

/-- C5, as the claim states it, fails: with a NUL byte among the vendor words
(EDX = "ine" then NUL) the returned string stops at the NUL and has 7 characters,
not the 12 of the raw decode. -/
theorem getCpuVendorId_not_always_12 :
    (getCpuVendorId hwNulVendor).result = asciiBytes "Genuine" ∧
      (getCpuVendorId hwNulVendor).result.length ≠ 12 ∧
      (getCpuVendorId hwNulVendor).result ≠ vendorDecode (hwNulVendor.leaf 0) := by
  decide

/-- C5, amended: for every leaf 0 tuple none of whose 12 vendor bytes is zero,
recognised vendor or not, `getCpuVendorId` returns the raw decode, a string of
exactly 12 characters: the bytes of EBX, then EDX, then ECX, least significant
first, with no vendor-specific branching. -/
theorem getCpuVendorId_raw_decode (hw : Hardware)
    (h : ∀ b ∈ vendorDecode (hw.leaf 0), b ≠ 0) :
    (getCpuVendorId hw).result = vendorDecode (hw.leaf 0) ∧
      (getCpuVendorId hw).result.length = 12 := by
  have hres : (getCpuVendorId hw).result = vendorDecode (hw.leaf 0) := by
    rw [getCpuVendorId_result, cString,
      List.takeWhile_append_of_pos (fun b hb => by simpa using h b hb)]
    simp [List.replicate]
  refine ⟨hres, ?_⟩
  rw [hres]
  simp [vendorDecode, intBytes]

theorem getCpuVendorId_raw_decode_witness :
    (∀ b ∈ vendorDecode (hwAmd.leaf 0), b ≠ 0) ∧
      (getCpuVendorId hwAmd).result = vendorDecode (hwAmd.leaf 0) ∧
      (getCpuVendorId hwAmd).result.length = 12 :=
  ⟨by decide, getCpuVendorId_raw_decode hwAmd (by decide)⟩

/-- C6 fails on the code: on a processor whose highest extended leaf is
`0x80000008` and whose leaves `0x80000002..0x80000004` spell
"SimdUtil Test CPU @ 1.00GHz", `getCpuBrandString` returns the vendor id
"GenuineIntel", because its body calls `copyCpuVendorId`. -/
theorem getCpuBrandString_returns_vendor_id :
    0x80000004 ≤ highestExtendedLeaf hwIntelExt ∧
      brandStringSpec hwIntelExt = asciiBytes "SimdUtil Test CPU @ 1.00GHz" ∧
      (getCpuBrandString hwIntelExt).result = asciiBytes "GenuineIntel" ∧
      (getCpuBrandString hwIntelExt).result ≠ brandStringSpec hwIntelExt := by
  decide

/-- C7 fails on the code: on a processor whose highest extended leaf is
`0x80000000`, below `0x80000004`, `getCpuBrandString` returns "GenuineIntel", not
the empty string. -/
theorem getCpuBrandString_nonempty_without_leaf :
    highestExtendedLeaf hwIntelNoExt < 0x80000004 ∧
      (getCpuBrandString hwIntelNoExt).result = asciiBytes "GenuineIntel" ∧
      (getCpuBrandString hwIntelNoExt).result ≠ [] := by
  decide

/-- C8 fails on the code: the range check of `copyCpuBrandString` is inverted.
With highest extended leaf `0x80000000` it queries leaves `0x80000002`,
`0x80000003`, `0x80000004` and overwrites the buffer; with highest extended leaf
`0x80000008` it issues no further query and writes the empty string. -/
theorem copyCpuBrandString_check_inverted :
    (highestExtendedLeaf hwIntelNoExt < 0x80000004 ∧
      (copyCpuBrandString hwIntelNoExt (List.replicate 64 0x41)).queries =
        [Query.leaf (toInt 0x80000000), Query.leaf (toInt 0x80000002),
          Query.leaf (toInt 0x80000003), Query.leaf (toInt 0x80000004)] ∧
      (copyCpuBrandString hwIntelNoExt (List.replicate 64 0x41)).result =
        List.replicate 48 0 ++ List.replicate 16 0x41) ∧
    (0x80000004 ≤ highestExtendedLeaf hwIntelExt ∧
      (copyCpuBrandString hwIntelExt (List.replicate 64 0x41)).queries =
        [Query.leaf (toInt 0x80000000)] ∧
      (copyCpuBrandString hwIntelExt (List.replicate 64 0x41)).result =
        0 :: List.replicate 63 0x41 ∧
      cString (copyCpuBrandString hwIntelExt (List.replicate 64 0x41)).result = []) := by
  decide

/-! ## Allocator -/

/-- C9: for all element types `T`, `U` and alignments `a1`, `a2`,
`AlignedAllocator<T, a1> == AlignedAllocator<U, a2>` is true exactly when
`a1 = a2`, whatever `T` and `U` are, and `operator!=` is the negation of
`operator==` on the same operands. -/
theorem operatorEq_iff_alignment (T U : CType) (a1 a2 : Nat) (lhs : AlignedAllocator T a1)
    (rhs : AlignedAllocator U a2) :
    (operatorEq lhs rhs = true ↔ a1 = a2) ∧ operatorNe lhs rhs = !(operatorEq lhs rhs) := by
  simp [operatorEq, operatorNe]

theorem alignedMalloc_null_of_fails (pf : Platform) (nBytes alignment : Nat)
    (h : primitiveFails pf nBytes alignment = true) : alignedMalloc pf nBytes alignment = 0 := by
  unfold primitiveFails at h
  unfold alignedMalloc
  cases hb : pf.branch <;> rw [hb] at h <;> simp_all

/-- C10: the two failure styles stay distinct.  For every element count and every
outcome of the platform primitive, `AlignedAllocator<T, A>::allocate(n)` throws
`std::bad_alloc` exactly when `alignedAllocArray<T>(n, A)` returns null and
otherwise returns that non-null pointer; `alignedMalloc` and `alignedAllocArray`
return a pointer (they have no exceptional outcome), and it is null when the
primitive fails. -/
theorem allocate_throws_iff_null (pf : Platform) (T : CType) (A : Nat)
    (self : AlignedAllocator T A) (n : Nat) :
    (self.allocate pf n = Except.error Exception.bad_alloc ↔ alignedAllocArray pf T n A = 0) ∧
    (alignedAllocArray pf T n A ≠ 0 →
      self.allocate pf n = Except.ok (alignedAllocArray pf T n A)) ∧
    (∀ nBytes alignment : Nat, primitiveFails pf nBytes alignment = true →
      alignedMalloc pf nBytes alignment = 0) ∧
    (primitiveFails pf (n * T.sizeOf % 2 ^ pf.sizeBits) A = true →
      alignedAllocArray pf T n A = 0) := by
  refine ⟨?_, ?_, ?_, ?_⟩
  · unfold AlignedAllocator.allocate
    by_cases h : alignedAllocArray pf T n A = 0
    · simp [h, throw, throwThe, MonadExceptOf.throw]
    · simp [h, pure, Except.pure]
  · intro h
    unfold AlignedAllocator.allocate
    simp [h, pure, Except.pure]
  · intro nBytes alignment h
    exact alignedMalloc_null_of_fails pf nBytes alignment h
  · intro h
    exact alignedMalloc_null_of_fails pf _ A h

theorem allocate_throws_iff_null_witness :
    (primitiveFails pfPosix (2000 * cFloat.sizeOf % 2 ^ pfPosix.sizeBits) 32 = true ∧
      alignedAllocArray pfPosix cFloat 2000 32 = 0 ∧
      (⟨⟩ : AlignedAllocator cFloat 32).allocate pfPosix 2000
        = Except.error Exception.bad_alloc) ∧
    (alignedAllocArray pfPosix cFloat 8 32 ≠ 0 ∧
      (⟨⟩ : AlignedAllocator cFloat 32).allocate pfPosix 8 = Except.ok 0x10000) :=
  ⟨⟨by decide,
      (allocate_throws_iff_null pfPosix cFloat 32 ⟨⟩ 2000).2.2.2 (by decide),
      (allocate_throws_iff_null pfPosix cFloat 32 ⟨⟩ 2000).1.2
        ((allocate_throws_iff_null pfPosix cFloat 32 ⟨⟩ 2000).2.2.2 (by decide))⟩,
    ⟨by decide, (allocate_throws_iff_null pfPosix cFloat 32 ⟨⟩ 8).2.1 (by decide)⟩⟩

/-! ## Further feature predicates -/

theorem cpuidBit_run (hw : Hardware) (eax : Int) (index nBit : Nat) (log : List Query) :
    cpuidBit hw eax index nBit log =
      ((cpuidBit hw eax index nBit).result, log ++ [Query.leaf eax]) := by
  simp only [cpuidBit, cpuid, M.result, bind, pure]

theorem isSse4aAvailable_run (hw : Hardware) :
    isSse4aAvailable hw [] =
      if highestExtendedLeaf hw < 0x80000001 then (false, [Query.leaf (toInt 0x80000000)])
      else ((cpuidBit hw (toInt 0x80000001) 2 6).result,
        [Query.leaf (toInt 0x80000000), Query.leaf (toInt 0x80000001)]) := by
  simp only [isSse4aAvailable, cpuid, bind, pure]
  rw [highest_eq]
  split
  · rfl
  · rw [cpuidBit_run]
    rfl

/-- C15: `isSse4aAvailable` checks the extended leaf range before the lookup.  For
every oracle it returns true exactly when the highest extended leaf reported by
leaf `0x80000000` (EAX as unsigned) is at least `0x80000001` and bit 6 of ECX of the
leaf `0x80000001` tuple is set; when the highest extended leaf is below
`0x80000001` it returns false and its only query is leaf `0x80000000`. -/
theorem isSse4aAvailable_checks_range (hw : Hardware) :
    ((isSse4aAvailable hw).result = true ↔
      (0x80000001 ≤ highestExtendedLeaf hw ∧
        (hw.leaf (toInt 0x80000001)).bit 2 6 = true)) ∧
    (highestExtendedLeaf hw < 0x80000001 →
      (isSse4aAvailable hw).result = false ∧
      (isSse4aAvailable hw).queries = [Query.leaf (toInt 0x80000000)] ∧
      Query.leaf (toInt 0x80000001) ∉ (isSse4aAvailable hw).queries) := by
  have hrun := isSse4aAvailable_run hw
  have hbit := cpuidBit_eq_bit hw (toInt 0x80000001) 2 6 (by decide) (by decide)
  unfold M.queries
  rw [M.result, hrun]
  constructor
  · by_cases h : highestExtendedLeaf hw < 0x80000001
    · rw [if_pos h]
      constructor
      · intro hf
        exact absurd hf (by decide)
      · intro hc
        exact absurd h (Nat.not_lt.mpr hc.1)
    · rw [if_neg h, hbit]
      exact ⟨fun hb => ⟨Nat.not_lt.mp h, hb⟩, fun hc => hc.2⟩
  · intro h
    rw [if_pos h]
    refine ⟨rfl, rfl, ?_⟩
    decide

theorem isSse4aAvailable_checks_range_witness :
    (highestExtendedLeaf hwNoExtAllBit6 < 0x80000001 ∧
      (isSse4aAvailable hwNoExtAllBit6).result = false ∧
      (isSse4aAvailable hwNoExtAllBit6).queries = [Query.leaf (toInt 0x80000000)] ∧
      Query.leaf (toInt 0x80000001) ∉ (isSse4aAvailable hwNoExtAllBit6).queries) ∧
    (isSse4aAvailable hwAmdSse4a).result = true :=
  ⟨⟨by decide, (isSse4aAvailable_checks_range hwNoExtAllBit6).2 (by decide)⟩,
    (isSse4aAvailable_checks_range hwAmdSse4a).1.2 ⟨by decide, by decide⟩⟩

/-- C17: `isAvx512VnniAvailable` and `isAvx512Vbmi2Available` decode the identical
bit coordinate: for every oracle both issue the plain query of leaf 7 and return
bit 6 of ECX (word index 2) of its tuple. -/
theorem vnni_and_vbmi2_same_coordinate (hw : Hardware) :
    (isAvx512VnniAvailable hw).result = (isAvx512Vbmi2Available hw).result ∧
    (isAvx512VnniAvailable hw).result = (hw.leaf 7).bit 2 6 ∧
    (isAvx512Vbmi2Available hw).result = (hw.leaf 7).bit 2 6 ∧
    (isAvx512VnniAvailable hw).queries = [Query.leaf 7] ∧
    (isAvx512Vbmi2Available hw).queries = [Query.leaf 7] :=
  ⟨rfl, cpuidBit_eq_bit hw 7 2 6 (by decide) (by decide),
    cpuidBit_eq_bit hw 7 2 6 (by decide) (by decide), rfl, rfl⟩

/-- C12 fails on the code: `isAvx512VnniAvailable` reads bit 6 of ECX of leaf 7,
not bit 11.  On a processor reporting only ECX bit 11 it returns false, and on one
reporting only ECX bit 6 it returns true; on the processor `hwDemo`, which sets
ECX bit 11, the demonstration program's `AVX512VNNI` getter returns true and the
header predicate false. -/
theorem isAvx512VnniAvailable_reads_bit6 :
    ((hwVnniOnly.leaf 7).bit 2 11 = true ∧ (isAvx512VnniAvailable hwVnniOnly).result = false) ∧
    ((hwVbmi2Only.leaf 7).bit 2 11 = false ∧
      (isAvx512VnniAvailable hwVbmi2Only).result = true) ∧
    ((hwDemo.leaf 7).bit 2 11 = true ∧
      (InstructionSet_Internal.new hwDemo heap32).result.map InstructionSet.AVX512VNNI
        = some true ∧
      (isAvx512VnniAvailable hwDemo).result = false) := by
  decide

/-- C14 fails on the code: the two leaf 7 EDX predicates are exchanged.  On a
processor reporting only EDX bit 2, `isAvx512_4vnniwAvailable` returns false and
`isAvx512_4fmapsAvailable` returns true; on one reporting only EDX bit 3 it is
the other way round; on the processor `hwDemo`, which sets only EDX bit 2, the
demonstration program's getters return `AVX512_4VNNIW` true and `AVX512_4FMAPS`
false, the header predicates the opposite. -/
theorem leaf7_edx_predicates_exchanged :
    ((hw4vnniwOnly.leaf 7).bit 3 2 = true ∧
      (isAvx512_4vnniwAvailable hw4vnniwOnly).result = false ∧
      (isAvx512_4fmapsAvailable hw4vnniwOnly).result = true) ∧
    ((hw4fmapsOnly.leaf 7).bit 3 3 = true ∧
      (isAvx512_4fmapsAvailable hw4fmapsOnly).result = false ∧
      (isAvx512_4vnniwAvailable hw4fmapsOnly).result = true) ∧
    ((InstructionSet_Internal.new hwDemo heap32).result.map InstructionSet.AVX512_4VNNIW
        = some true ∧
      (InstructionSet_Internal.new hwDemo heap32).result.map InstructionSet.AVX512_4FMAPS
        = some false ∧
      (isAvx512_4vnniwAvailable hwDemo).result = false ∧
      (isAvx512_4fmapsAvailable hwDemo).result = true) := by
  decide

/-! ## Allocator requests -/

/-- C13: `alignedAllocArray<T>(count, alignment)` does not guard the size
computation.  For every count it requests `(count * sizeof(T)) mod 2^w` bytes from
`alignedMalloc`, `w` being the width of `std::size_t`, with the alignment
unchanged; when `sizeof(T) > 1` some count makes the requested byte count smaller
than the product `count * sizeof(T)`, and when `sizeof(T)` is itself a
`std::size_t` value such a count exists among the `std::size_t` values. -/
theorem alignedAllocArray_unguarded (pf : Platform) (T : CType) :
    (∀ count alignment : Nat,
      alignedAllocArray pf T count alignment =
        alignedMalloc pf (count * T.sizeOf % 2 ^ pf.sizeBits) alignment) ∧
    (1 < T.sizeOf →
      ∃ count : Nat, count * T.sizeOf % 2 ^ pf.sizeBits < count * T.sizeOf) ∧
    (1 < T.sizeOf → T.sizeOf < 2 ^ pf.sizeBits →
      ∃ count : Nat, count < 2 ^ pf.sizeBits ∧
        count * T.sizeOf % 2 ^ pf.sizeBits < count * T.sizeOf) := by
  refine ⟨fun _ _ => rfl, ?_, ?_⟩
  · intro h1
    refine ⟨2 ^ pf.sizeBits, ?_⟩
    rw [Nat.mul_mod_right]
    exact Nat.mul_pos (Nat.two_pow_pos _) (by omega)
  intro h1 hfit
  have hw : pf.sizeBits ≠ 0 := by
    intro h0
    rw [h0] at hfit
    simp at hfit
    omega
  obtain ⟨k, hk⟩ := Nat.exists_eq_succ_of_ne_zero hw
  have hpos : 0 < 2 ^ k := Nat.two_pow_pos k
  have hpow : 2 ^ pf.sizeBits = 2 * 2 ^ k := by rw [hk, Nat.pow_succ, Nat.mul_comm]
  refine ⟨2 ^ k, by omega, ?_⟩
  have hmod : 2 ^ k * T.sizeOf % 2 ^ pf.sizeBits < 2 ^ pf.sizeBits :=
    Nat.mod_lt _ (Nat.two_pow_pos _)
  have hge : 2 * 2 ^ k ≤ 2 ^ k * T.sizeOf := by
    calc 2 * 2 ^ k = 2 ^ k * 2 := Nat.mul_comm _ _
      _ ≤ 2 ^ k * T.sizeOf := Nat.mul_le_mul_left _ h1
  omega

theorem alignedAllocArray_unguarded_witness :
    (1 < cFloat.sizeOf ∧ cFloat.sizeOf < 2 ^ pfPosix.sizeBits) ∧
      (∃ count : Nat, count < 2 ^ pfPosix.sizeBits ∧
        count * cFloat.sizeOf % 2 ^ pfPosix.sizeBits < count * cFloat.sizeOf) ∧
      alignedAllocArray pfPosix cFloat (2 ^ 62) 32 = alignedMalloc pfPosix 0 32 :=
  ⟨by decide,
    (alignedAllocArray_unguarded pfPosix cFloat).2.2 (by decide) (by decide),
    (alignedAllocArray_unguarded pfPosix cFloat).1 (2 ^ 62) 32⟩

/-- C11: for every power-of-two alignment `a` and positive byte count `n`,
`alignedMalloc(n, a)` returns null or a non-null pointer whose address is a
multiple of `a` and whose block holds at least `n` bytes, provided the platform
primitive honours its own contract for the request; `alignedMalloc` hands `n` and
`a` to the primitive of the build branch unchanged, each in its own argument
position, and returns the primitive's pointer unchanged. -/
theorem alignedMalloc_aligned_or_null (pf : Platform) (blockSize : Nat → Nat) (n a : Nat)
    (ha : isPowerOfTwo a = true) (hn : 0 < n) (hc : honoursContract pf blockSize n a) :
    (alignedMalloc pf n a = 0 ∨
      (alignedMalloc pf n a ≠ 0 ∧ alignedMalloc pf n a % a = 0 ∧
        n ≤ blockSize (alignedMalloc pf n a))) ∧
    (pf.branch = Branch.cxx17 → alignedMalloc pf n a = pf.aligned_alloc a n) ∧
    (pf.branch = Branch.msvc → alignedMalloc pf n a = pf.aligned_malloc n a) ∧
    (pf.branch = Branch.posix →
      alignedMalloc pf n a =
        if (pf.posix_memalign a n).1 = 0 then (pf.posix_memalign a n).2 else 0) := by
  have hpost := hc ha hn
  unfold primitivePost at hpost
  unfold alignedMalloc
  refine ⟨?_, ?_, ?_, ?_⟩
  · cases hb : pf.branch <;> rw [hb] at hpost <;> simp only at hpost ⊢
    · by_cases h0 : pf.aligned_alloc a n = 0
      · exact Or.inl h0
      · simp [h0] at hpost
        exact Or.inr ⟨h0, hpost.1, hpost.2⟩
    · by_cases h0 : pf.aligned_malloc n a = 0
      · exact Or.inl h0
      · simp [h0] at hpost
        exact Or.inr ⟨h0, hpost.1, hpost.2⟩
    · by_cases hrc : (pf.posix_memalign a n).1 = 0
      · rw [if_pos hrc]
        simp [hrc] at hpost
        by_cases h0 : (pf.posix_memalign a n).2 = 0
        · exact Or.inl h0
        · exact Or.inr ⟨h0, hpost.1, hpost.2⟩
      · rw [if_neg hrc]
        exact Or.inl rfl
  · intro hb
    rw [hb]
  · intro hb
    rw [hb]
  · intro hb
    rw [hb]

theorem alignedMalloc_aligned_or_null_witness :
    (isPowerOfTwo 32 = true ∧ 0 < 64 ∧ honoursContract pfMsvc32 (fun _ => 4096) 64 32) ∧
      alignedMalloc pfMsvc32 64 32 = 0x20000 ∧
      (alignedMalloc pfMsvc32 64 32 = 0 ∨
        (alignedMalloc pfMsvc32 64 32 ≠ 0 ∧ alignedMalloc pfMsvc32 64 32 % 32 = 0 ∧
          64 ≤ (fun _ : Nat => 4096) (alignedMalloc pfMsvc32 64 32))) :=
  ⟨⟨by decide, by decide, fun _ _ => by decide⟩, by decide,
    (alignedMalloc_aligned_or_null pfMsvc32 (fun _ => 4096) 64 32 (by decide) (by decide)
      (fun _ _ => by decide)).1⟩

/-! ## Cache geometry, continued -/

theorem testBit_mask_high (j : Nat) :
    (0xffff0000 : Nat).testBit j = (decide (16 ≤ j) && decide (j < 32)) := by
  have h : (0xffff0000 : Nat) = 2 ^ 16 * (2 ^ 16 - 1) := by norm_num
  rw [h, Nat.testBit_mul_pow_two, Nat.testBit_two_pow_sub_one]
  by_cases h1 : 16 ≤ j <;> by_cases h2 : j < 32 <;> simp [h1, h2] <;> omega

theorem mask_shift_eq (u : Nat) (hu : u < 4294967296) :
    (u &&& 0xffff0000) >>> 6 = 1024 * (u >>> 16) := by
  apply Nat.eq_of_testBit_eq
  intro i
  rw [Nat.testBit_shiftRight, Nat.testBit_and, testBit_mask_high,
    show (1024 : Nat) = 2 ^ 10 by norm_num, Nat.testBit_mul_pow_two, Nat.testBit_shiftRight]
  by_cases h1 : 10 ≤ i
  · have hidx : 16 + (i - 10) = 6 + i := by omega
    rw [hidx]
    by_cases h2 : 6 + i < 32
    · simp [h1, h2]
      omega
    · have hbig : u < 2 ^ (6 + i) :=
        lt_of_lt_of_le hu (by
          calc (4294967296 : Nat) = 2 ^ 32 := by norm_num
            _ ≤ 2 ^ (6 + i) := Nat.pow_le_pow_right (by decide) (by omega))
      rw [Nat.testBit_lt_two_pow hbig]
      simp
  · have h3 : ¬ 16 ≤ 6 + i := by omega
    simp [h1, h3]

/-- C18: the cache-geometry sentinel is unambiguous.  For every oracle whose
highest extended leaf is at least `0x80000006` and every ECX of leaf `0x80000006`,
bit 31 set or not, `cacheSize = 1024 * (ECX >> 16)` (ECX unsigned), which lies in
`0..67107840`, and `cacheLineSize` lies in `0..255`; hence `getL2CacheSize`
returns `(-1, -1)` exactly when the highest extended leaf is below `0x80000006`. -/
theorem getL2CacheSize_sentinel_unambiguous (hw : Hardware) :
    (0x80000006 ≤ highestExtendedLeaf hw →
      (getL2CacheSize hw).result =
        (((1024 * (toUnsigned (hw.leaf (toInt 0x80000006)).ecx >>> 16) : Nat) : Int),
          ((toUnsigned (hw.leaf (toInt 0x80000006)).ecx &&& 0xff : Nat) : Int)) ∧
      0 ≤ (getL2CacheSize hw).result.1 ∧ (getL2CacheSize hw).result.1 ≤ 67107840 ∧
      0 ≤ (getL2CacheSize hw).result.2 ∧ (getL2CacheSize hw).result.2 ≤ 255) ∧
    ((getL2CacheSize hw).result = (-1, -1) ↔ highestExtendedLeaf hw < 0x80000006) := by
  have hu := toUnsigned_lt (hw.leaf (toInt 0x80000006)).ecx
  have hsize : toUnsigned (hw.leaf (toInt 0x80000006)).ecx >>> 16 ≤ 65535 := by
    rw [Nat.shiftRight_eq_div_pow]
    omega
  have hline : toUnsigned (hw.leaf (toInt 0x80000006)).ecx &&& 0xff ≤ 0xff := Nat.and_le_right
  have hres : 0x80000006 ≤ highestExtendedLeaf hw →
      (getL2CacheSize hw).result =
        (((1024 * (toUnsigned (hw.leaf (toInt 0x80000006)).ecx >>> 16) : Nat) : Int),
          ((toUnsigned (hw.leaf (toInt 0x80000006)).ecx &&& 0xff : Nat) : Int)) := by
    intro h
    rw [getL2CacheSize_result, if_neg (Nat.not_lt.mpr h),
      toInt_natCast_small _ (cacheSize_small _), toInt_natCast_small _ (cacheLineSize_small _),
      mask_shift_eq _ hu]
  constructor
  · intro h
    refine ⟨hres h, ?_⟩
    rw [hres h]
    refine ⟨?_, ?_, ?_, ?_⟩
    · exact Int.ofNat_nonneg _
    · show ((1024 * (toUnsigned (hw.leaf (toInt 0x80000006)).ecx >>> 16) : Nat) : Int) ≤ 67107840
      omega
    · exact Int.ofNat_nonneg _
    · show ((toUnsigned (hw.leaf (toInt 0x80000006)).ecx &&& 0xff : Nat) : Int) ≤ 255
      omega
  · constructor
    · intro heq
      by_contra hnot
      have hge : 0x80000006 ≤ highestExtendedLeaf hw := Nat.not_lt.mp hnot
      rw [hres hge] at heq
      have h1 := congrArg Prod.fst heq
      have h2 : (0 : Int) ≤ ((1024 * (toUnsigned (hw.leaf (toInt 0x80000006)).ecx >>> 16) : Nat) : Int) :=
        Int.ofNat_nonneg _
      simp only at h1
      omega
    · intro h
      rw [getL2CacheSize_result, if_pos h]

theorem getL2CacheSize_sentinel_unambiguous_witness :
    0x80000006 ≤ highestExtendedLeaf hwL2AllOnes ∧
      (toUnsigned (hwL2AllOnes.leaf (toInt 0x80000006)).ecx).testBit 31 = true ∧
      (getL2CacheSize hwL2AllOnes).result = (67107840, 255) ∧
      0 ≤ (getL2CacheSize hwL2AllOnes).result.1 :=
  ⟨by decide, by decide, by decide,
    ((getL2CacheSize_sentinel_unambiguous hwL2AllOnes).1 (by decide)).2.1⟩

/-! ## Strings, continued -/

theorem cString_append_nul (v rest : List Nat) : cString (v ++ 0 :: rest) = cString v := by
  unfold cString
  induction v with
  | nil => simp
  | cons b bs ih =>
    by_cases hb : b = 0
    · subst hb
      simp
    · simp [List.takeWhile_cons, hb, ih]

theorem getCpuVendorId_eq_cString (hw : Hardware) :
    (getCpuVendorId hw).result = cString (vendorDecode (hw.leaf 0)) := by
  rw [getCpuVendorId_result]
  exact cString_append_nul _ (List.replicate 19 0)

theorem getCpuBrandString_eq_cString (hw : Hardware) :
    (getCpuBrandString hw).result = cString (vendorDecode (hw.leaf 0)) := by
  have h := copyCpuVendorId_result hw (List.replicate 64 0)
  simp only [getCpuBrandString, M.result, bind, pure] at h ⊢
  rw [h]
  exact cString_append_nul _ (List.replicate 51 0)

theorem vendorDecode_length (r : Regs) : (vendorDecode r).length = 12 := by
  simp [vendorDecode, intBytes]

/-- C19: for every oracle `getCpuBrandString` returns the same string as
`getCpuVendorId`.  It fills its zeroed 64-byte buffer through `copyCpuVendorId`,
its only query is leaf 0, its result depends only on the leaf 0 tuple, and it
queries none of the leaves `0x80000000`, `0x80000002`, `0x80000003`,
`0x80000004`. -/
theorem getCpuBrandString_same_as_vendor_id (hw : Hardware) :
    (getCpuBrandString hw).result = (getCpuVendorId hw).result ∧
    (getCpuBrandString hw).result = cString (copyCpuVendorId hw (List.replicate 64 0)).result ∧
    (getCpuBrandString hw).queries = [Query.leaf 0] ∧
    (∀ hw2 : Hardware, hw2.leaf 0 = hw.leaf 0 →
      (getCpuBrandString hw2).result = (getCpuBrandString hw).result) ∧
    Query.leaf (toInt 0x80000000) ∉ (getCpuBrandString hw).queries ∧
    Query.leaf (toInt 0x80000002) ∉ (getCpuBrandString hw).queries ∧
    Query.leaf (toInt 0x80000003) ∉ (getCpuBrandString hw).queries ∧
    Query.leaf (toInt 0x80000004) ∉ (getCpuBrandString hw).queries := by
  have hq : (getCpuBrandString hw).queries = [Query.leaf 0] := rfl
  refine ⟨?_, rfl, hq, ?_, ?_, ?_, ?_, ?_⟩
  · rw [getCpuBrandString_eq_cString, getCpuVendorId_eq_cString]
  · intro hw2 h
    rw [getCpuBrandString_eq_cString, getCpuBrandString_eq_cString, h]
  all_goals rw [hq]; decide

theorem getCpuBrandString_same_as_vendor_id_witness :
    hwAmd.leaf 0 = hwAmdSse4a.leaf 0 ∧
      (getCpuBrandString hwAmd).result = (getCpuBrandString hwAmdSse4a).result ∧
      (getCpuBrandString hwAmdSse4a).result = asciiBytes "AuthenticAMD" :=
  ⟨by decide, (getCpuBrandString_same_as_vendor_id hwAmdSse4a).2.2.2.1 hwAmd (by decide),
    by decide⟩

/-- C20: for every leaf 0 tuple the string returned by `getCpuVendorId` is the
longest NUL-free prefix of the 12 bytes formed by the bytes of EBX, EDX, ECX
(least significant first): it is a prefix without a zero byte, no NUL-free prefix
is longer, its length is at most 12, it is the full 12-byte decode exactly when
none of the 12 bytes is zero, and it does not depend on EAX. -/
theorem getCpuVendorId_stops_at_first_nul (hw : Hardware) :
    (vendorDecode (hw.leaf 0)).length = 12 ∧
    (getCpuVendorId hw).result <+: vendorDecode (hw.leaf 0) ∧
    (∀ b ∈ (getCpuVendorId hw).result, b ≠ 0) ∧
    (∀ p : List Nat, p <+: vendorDecode (hw.leaf 0) → (∀ b ∈ p, b ≠ 0) →
      p.length ≤ (getCpuVendorId hw).result.length) ∧
    (getCpuVendorId hw).result.length ≤ 12 ∧
    ((getCpuVendorId hw).result = vendorDecode (hw.leaf 0) ↔
      ∀ b ∈ vendorDecode (hw.leaf 0), b ≠ 0) ∧
    (∀ hw2 : Hardware, (hw2.leaf 0).ebx = (hw.leaf 0).ebx → (hw2.leaf 0).edx = (hw.leaf 0).edx →
      (hw2.leaf 0).ecx = (hw.leaf 0).ecx →
      (getCpuVendorId hw2).result = (getCpuVendorId hw).result) := by
  have hs := getCpuVendorId_eq_cString hw
  have hpre : (getCpuVendorId hw).result <+: vendorDecode (hw.leaf 0) := by
    rw [hs]
    exact List.takeWhile_prefix _
  refine ⟨vendorDecode_length _, hpre, ?_, ?_, ?_, ?_, ?_⟩
  · intro b hb
    rw [hs] at hb
    have := List.mem_takeWhile_imp hb
    simpa using this
  · intro p hp hnz
    obtain ⟨t, ht⟩ := hp
    rw [hs, ← ht, cString,
      List.takeWhile_append_of_pos (fun b hb => by simpa using hnz b hb)]
    simp
  · have := hpre.length_le
    rw [vendorDecode_length] at this
    exact this
  · rw [hs, cString, List.takeWhile_eq_self_iff]
    simp
  · intro hw2 hb hd hc
    rw [getCpuVendorId_eq_cString, getCpuVendorId_eq_cString]
    simp only [vendorDecode, hb, hd, hc]

theorem getCpuVendorId_stops_at_first_nul_witness :
    (asciiBytes "Genu" <+: vendorDecode (hwNulVendor.leaf 0) ∧
      ∀ b ∈ asciiBytes "Genu", b ≠ 0) ∧
    (asciiBytes "Genu").length ≤ (getCpuVendorId hwNulVendor).result.length ∧
    (getCpuVendorId hwNulVendor).result.length = 7 ∧
    ((hwIntelExt.leaf 0).ebx = (hwIntelNoExt.leaf 0).ebx ∧
      (getCpuVendorId hwIntelExt).result = (getCpuVendorId hwIntelNoExt).result) :=
  ⟨⟨by decide, by decide⟩,
    (getCpuVendorId_stops_at_first_nul hwNulVendor).2.2.2.1 (asciiBytes "Genu")
      (by decide) (by decide),
    by decide,
    ⟨by decide, (getCpuVendorId_stops_at_first_nul hwIntelNoExt).2.2.2.2.2.2 hwIntelExt
      (by decide) (by decide) (by decide)⟩⟩

/-! ## The demonstration program -/

theorem toInt_range (z : Int) : -2147483648 ≤ toInt z ∧ toInt z < 2147483648 := by
  unfold toInt
  omega

theorem captureN_getElem (hw : Hardware) (n : Nat) :
    ∀ (i : Int) (log : List Query) (k : Nat),
      (captureN hw n i log).1[k]? =
        if k < n then some (hw.subleaf (i + k) 0).words else none := by
  induction n with
  | zero =>
    intro i log k
    simp [captureN, pure]
  | succ n ih =>
    intro i log k
    simp only [captureN, cpuidex, bind, pure]
    cases k with
    | zero => simp
    | succ k =>
      rw [List.getElem?_cons_succ, ih]
      have : i + 1 + (k : Int) = i + ((k + 1 : Nat) : Int) := by push_cast; ring
      simp only [this, Nat.add_lt_add_iff_right]

theorem captureLeaves_result (hw : Hardware) (capacity : Nat) (first last : Int)
    (log : List Query) (h : ¬ (first ≤ last ∧ last = 2147483647))
    (hcap : (last + 1 - first).toNat ≤ capacity) :
    (captureLeaves hw capacity first last log).1 =
      some (captureN hw (last + 1 - first).toNat first log).1 := by
  simp only [captureLeaves, if_neg h, if_neg (Nat.not_lt.mpr hcap), bind, pure]

theorem toInt_min : toInt 0x80000000 = -2147483648 := by decide

theorem toUnsigned_words (r : Regs) :
    toUnsigned (at4 r.words 1) = toUnsigned r.ebx ∧ toUnsigned (at4 r.words 2) = toUnsigned r.ecx ∧
      toUnsigned (at4 r.words 3) = toUnsigned r.edx :=
  ⟨toUnsigned_at4_words r 1 (by decide), toUnsigned_at4_words r 2 (by decide),
    toUnsigned_at4_words r 3 (by decide)⟩

theorem captureVendor_isSome (data_ : List (List Int)) (d : List Int) (h : data_[0]? = some d) :
    ∃ v, captureVendor data_ = some v := by
  simp [captureVendor, h]

theorem loadLeaf1_eq (nIds_ : Int) (data_ : List (List Int)) (r : Regs) (hn : 1 ≤ nIds_)
    (h : data_[1]? = some r.words) :
    loadLeaf1 nIds_ data_ = some (toUnsigned r.ecx, toUnsigned r.edx) := by
  simp [loadLeaf1, h, hn, bitset32, toUnsigned_words]

theorem loadLeaf7_eq (nIds_ : Int) (data_ : List (List Int)) (r : Regs) (hn : 7 ≤ nIds_)
    (h : data_[7]? = some r.words) :
    loadLeaf7 nIds_ data_ = some (toUnsigned r.ebx, toUnsigned r.ecx, toUnsigned r.edx) := by
  simp [loadLeaf7, h, hn, bitset32, toUnsigned_words]

theorem loadLeaf81_isSome (nExIds_ : Int) (extdata_ : List (List Int))
    (h : toUnsigned nExIds_ ≥ 0x80000001 → ∃ d, extdata_[1]? = some d) :
    ∃ f, loadLeaf81 nExIds_ extdata_ = some f := by
  unfold loadLeaf81
  by_cases hc : toUnsigned nExIds_ ≥ 0x80000001
  · obtain ⟨d, hd⟩ := h hc
    simp [hc, hd]
  · simp [hc]

theorem captureBrand_isSome (nExIds_ : Int) (extdata_ : List (List Int))
    (h : toUnsigned nExIds_ ≥ 0x80000004 →
      (∃ d, extdata_[2]? = some d) ∧ (∃ d, extdata_[3]? = some d) ∧
        (∃ d, extdata_[4]? = some d)) :
    ∃ b, captureBrand nExIds_ extdata_ = some b := by
  unfold captureBrand
  by_cases hc : toUnsigned nExIds_ ≥ 0x80000004
  · obtain ⟨⟨d2, h2⟩, ⟨d3, h3⟩, ⟨d4, h4⟩⟩ := h hc
    simp [hc, h2, h3, h4]
  · simp [hc]

theorem extdata_getElem (hw : Hardware) (nExIds_ : Int) (log : List Query) (k : Nat)
    (hlo : -2147483648 ≤ nExIds_) (hk : (2147483648 : Nat) + k ≤ toUnsigned nExIds_) :
    ∃ d, (captureN hw (nExIds_ + 1 - toInt 0x80000000).toNat (toInt 0x80000000) log).1[k]?
      = some d := by
  rw [captureN_getElem, if_pos]
  · exact ⟨_, rfl⟩
  · rw [toInt_min]
    unfold toUnsigned at hk
    omega

theorem captureLeaves_none (hw : Hardware) (capacity : Nat) (first last : Int)
    (log : List Query) (h : first ≤ last ∧ last = 2147483647) :
    (captureLeaves hw capacity first last log).1 = none := by
  simp only [captureLeaves, if_pos h, pure]

theorem captureLeaves_none_of_capacity (hw : Hardware) (capacity : Nat) (first last : Int)
    (log : List Query) (h : capacity < (last + 1 - first).toNat) :
    (captureLeaves hw capacity first last log).1 = none := by
  unfold captureLeaves
  split
  · rfl
  · simp only [if_pos h, pure]

theorem captureLeaves_some (hw : Hardware) (capacity : Nat) (first last : Int)
    (log : List Query) (v : List (List Int))
    (h : (captureLeaves hw capacity first last log).1 = some v) :
    ¬ (first ≤ last ∧ last = 2147483647) ∧ (last + 1 - first).toNat ≤ capacity ∧
      v = (captureN hw (last + 1 - first).toNat first log).1 := by
  by_cases h1 : first ≤ last ∧ last = 2147483647
  · rw [captureLeaves_none hw capacity first last log h1] at h
    exact Option.noConfusion h
  · by_cases h2 : capacity < (last + 1 - first).toNat
    · rw [captureLeaves_none_of_capacity hw capacity first last log h2] at h
      exact Option.noConfusion h
    · rw [captureLeaves_result hw capacity first last log h1 (Nat.not_lt.mp h2)] at h
      exact ⟨h1, Nat.not_lt.mp h2, (Option.some.inj h).symm⟩

theorem new_result (hw : Hardware) (heap : Heap) (h7 : 7 ≤ highestBasicLeaf hw)
    (hmax : highestBasicLeaf hw < 2147483647)
    (hext : highestExtendedLeafInt hw < 2147483647)
    (hcapd : (highestBasicLeaf hw + 1).toNat ≤ heap.dataCapacity)
    (hcape : (highestExtendedLeafInt hw + 2147483649).toNat ≤ heap.extdataCapacity) :
    ∃ rep, (InstructionSet_Internal.new hw heap).result = some rep ∧
      rep.f_1_ECX_ = toUnsigned (hw.subleaf 1 0).ecx ∧
      rep.f_1_EDX_ = toUnsigned (hw.subleaf 1 0).edx ∧
      rep.f_7_EBX_ = toUnsigned (hw.subleaf 7 0).ebx ∧
      rep.f_7_ECX_ = toUnsigned (hw.subleaf 7 0).ecx ∧
      rep.f_7_EDX_ = toUnsigned (hw.subleaf 7 0).edx := by
  have hn : at4 (hw.leaf 0).words 0 = highestBasicLeaf hw := rfl
  have hne : at4 (hw.leaf (toInt 0x80000000)).words 0 = highestExtendedLeafInt hw := rfl
  have hlo : -2147483648 ≤ highestExtendedLeafInt hw :=
    (toInt_range (hw.leaf (toInt 0x80000000)).eax).1
  have hmin := toInt_min
  have e0 : (0 : Int) + ((0 : Nat) : Int) = 0 := by norm_num
  have e1 : (0 : Int) + ((1 : Nat) : Int) = 1 := by norm_num
  have e7 : (0 : Int) + ((7 : Nat) : Int) = 7 := by norm_num
  have hcd : (highestBasicLeaf hw + 1 - 0).toNat ≤ heap.dataCapacity := by
    rw [Int.sub_zero]
    exact hcapd
  have hce : (highestExtendedLeafInt hw + 1 - toInt 0x80000000).toNat
      ≤ heap.extdataCapacity := by
    have : highestExtendedLeafInt hw + 1 - toInt 0x80000000
        = highestExtendedLeafInt hw + 2147483649 := by
      rw [hmin]
      omega
    rw [this]
    exact hcape
  simp only [InstructionSet_Internal.new, cpuid, M.result, bind, pure]
  rw [hn, hne, captureLeaves_result hw _ 0 _ _ (by omega) hcd]
  simp only []
  have hL0 := captureN_getElem hw (highestBasicLeaf hw + 1 - 0).toNat 0 ([] ++ [Query.leaf 0]) 0
  have hL1 := captureN_getElem hw (highestBasicLeaf hw + 1 - 0).toNat 0 ([] ++ [Query.leaf 0]) 1
  have hL7 := captureN_getElem hw (highestBasicLeaf hw + 1 - 0).toNat 0 ([] ++ [Query.leaf 0]) 7
  rw [if_pos (by omega)] at hL0 hL1 hL7
  rw [e1] at hL1
  rw [e7] at hL7
  obtain ⟨v, hv⟩ := captureVendor_isSome _ _ hL0
  have h1 := loadLeaf1_eq (highestBasicLeaf hw) _ _ (by omega) hL1
  have h7e := loadLeaf7_eq (highestBasicLeaf hw) _ _ h7 hL7
  simp only [hv, h1, h7e]
  rw [captureLeaves_result hw _ _ _ _ (by omega) hce]
  simp only []
  generalize (captureLeaves hw heap.dataCapacity 0 (highestBasicLeaf hw)
    ([] ++ [Query.leaf 0])).2 ++ [Query.leaf (toInt 0x80000000)] = lg
  obtain ⟨f, hf⟩ := loadLeaf81_isSome (highestExtendedLeafInt hw) _
    (fun hc => extdata_getElem hw _ lg 1 hlo (by omega))
  obtain ⟨b, hb⟩ := captureBrand_isSome (highestExtendedLeafInt hw) _
    (fun hc => ⟨extdata_getElem hw _ lg 2 hlo (by omega), extdata_getElem hw _ lg 3 hlo (by omega),
      extdata_getElem hw _ lg 4 hlo (by omega)⟩)
  simp only [hf, hb]
  exact ⟨_, rfl, rfl, rfl, rfl, rfl, rfl⟩

theorem new_none_of_max (hw : Hardware) (heap : Heap)
    (hmax : highestBasicLeaf hw = 2147483647) :
    (InstructionSet_Internal.new hw heap).result = none := by
  have hn : at4 (hw.leaf 0).words 0 = highestBasicLeaf hw := rfl
  simp only [InstructionSet_Internal.new, cpuid, M.result, bind, pure]
  rw [hn, captureLeaves_none hw _ 0 _ _ ⟨by omega, hmax⟩]

/-- C16, as the claim states it, fails.  When leaf 0 reports the largest `int` as
the highest basic leaf (which is at least 7) the capture loop
`for (int i = 0; i <= nIds_; ++i)` has no normal exit on any heap.  When leaf 0
reports 7 and leaf `0x80000000` answers zeros, the second capture loop needs
`2^31 + 1` tuples and its `push_back` throws on the 32-bit heap.  In both cases
the constructor builds no object and no getter has a value, although the plain
query of every leaf equals its sub-leaf 0 query. -/
theorem demo_constructor_no_exit_at_max_leaf :
    (7 ≤ highestBasicLeaf hwMaxBasic ∧
      (∀ e : Int, hwMaxBasic.subleaf e 0 = hwMaxBasic.leaf e) ∧
      highestBasicLeaf hwMaxBasic = 2147483647 ∧
      (∀ heap : Heap, (InstructionSet_Internal.new hwMaxBasic heap).result = none)) ∧
    (7 ≤ highestBasicLeaf hwZeroExt ∧
      (∀ e : Int, hwZeroExt.subleaf e 0 = hwZeroExt.leaf e) ∧
      highestBasicLeaf hwZeroExt = 7 ∧ highestExtendedLeafInt hwZeroExt = 0 ∧
      (InstructionSet_Internal.new hwZeroExt heap32).result = none) :=
  ⟨⟨by decide, fun _ => rfl, by decide,
      fun heap => new_none_of_max hwMaxBasic heap (by decide)⟩,
    ⟨by decide, fun _ => rfl, by decide, by decide, by decide⟩⟩

/-- C16, amended: for every oracle and heap such that leaf 0 EAX, read as an
`int`, is at least 7 and below the largest `int`, leaf `0x80000000` EAX, read as
an `int`, is below the largest `int`, the heap lets `data_` grow to the
`nIds_ + 1` tuples and `extdata_` to the `nExIds_ + 2^31 + 1` tuples the two
capture loops push, and the plain query of a leaf equals its sub-leaf 0 query,
the constructor of the demonstration program builds its object and each of the
18 header predicates for the leaf 1 and leaf 7 EBX features returns the same
boolean as the corresponding `InstructionSet` getter. -/
theorem demo_getters_agree_with_header (hw : Hardware) (heap : Heap)
    (h7 : 7 ≤ highestBasicLeaf hw)
    (hmax : highestBasicLeaf hw < 2147483647)
    (hext : highestExtendedLeafInt hw < 2147483647)
    (hcapd : (highestBasicLeaf hw + 1).toNat ≤ heap.dataCapacity)
    (hcape : (highestExtendedLeafInt hw + 2147483649).toNat ≤ heap.extdataCapacity)
    (hplain : ∀ e : Int, hw.subleaf e 0 = hw.leaf e) :
    ∃ CPU_Rep, (InstructionSet_Internal.new hw heap).result = some CPU_Rep ∧
      (isMmxAvailable hw).result = InstructionSet.MMX CPU_Rep ∧
      (isSseAvailable hw).result = InstructionSet.SSE CPU_Rep ∧
      (isSse2Available hw).result = InstructionSet.SSE2 CPU_Rep ∧
      (isSse3Available hw).result = InstructionSet.SSE3 CPU_Rep ∧
      (isSsse3Available hw).result = InstructionSet.SSSE3 CPU_Rep ∧
      (isSse41Available hw).result = InstructionSet.SSE41 CPU_Rep ∧
      (isSse42Available hw).result = InstructionSet.SSE42 CPU_Rep ∧
      (isAvxAvailable hw).result = InstructionSet.AVX CPU_Rep ∧
      (isFmaAvailable hw).result = InstructionSet.FMA CPU_Rep ∧
      (isAvx2Available hw).result = InstructionSet.AVX2 CPU_Rep ∧
      (isAvx512FAvailable hw).result = InstructionSet.AVX512F CPU_Rep ∧
      (isAvx512BwAvailable hw).result = InstructionSet.AVX512BW CPU_Rep ∧
      (isAvx512CdAvailable hw).result = InstructionSet.AVX512CD CPU_Rep ∧
      (isAvx512DqAvailable hw).result = InstructionSet.AVX512DQ CPU_Rep ∧
      (isAvx512ErAvailable hw).result = InstructionSet.AVX512ER CPU_Rep ∧
      (isAvx512Ifma52Available hw).result = InstructionSet.AVX512IFMA CPU_Rep ∧
      (isAvx512PfAvailable hw).result = InstructionSet.AVX512PF CPU_Rep ∧
      (isAvx512VlAvailable hw).result = InstructionSet.AVX512VL CPU_Rep := by
  obtain ⟨rep, hr, e1c, e1d, e7b, _, _⟩ := new_result hw heap h7 hmax hext hcapd hcape
  rw [hplain] at e1c e1d e7b
  refine ⟨rep, hr, ?_, ?_, ?_, ?_, ?_, ?_, ?_, ?_, ?_, ?_, ?_, ?_, ?_, ?_, ?_, ?_, ?_, ?_⟩
  all_goals
    simp only [isMmxAvailable, isSseAvailable, isSse2Available, isSse3Available,
      isSsse3Available, isSse41Available, isSse42Available, isAvxAvailable, isFmaAvailable,
      isAvx2Available, isAvx512FAvailable, isAvx512BwAvailable, isAvx512CdAvailable,
      isAvx512DqAvailable, isAvx512ErAvailable, isAvx512Ifma52Available, isAvx512PfAvailable,
      isAvx512VlAvailable, InstructionSet.MMX, InstructionSet.SSE, InstructionSet.SSE2,
      InstructionSet.SSE3, InstructionSet.SSSE3, InstructionSet.SSE41, InstructionSet.SSE42,
      InstructionSet.AVX, InstructionSet.FMA, InstructionSet.AVX2, InstructionSet.AVX512F,
      InstructionSet.AVX512BW, InstructionSet.AVX512CD, InstructionSet.AVX512DQ,
      InstructionSet.AVX512ER, InstructionSet.AVX512IFMA, InstructionSet.AVX512PF,
      InstructionSet.AVX512VL, e1c, e1d, e7b]
    rw [cpuidBit_eq_bit _ _ _ _ (by decide) (by decide)]
    simp only [Regs.bit, Regs.word]

theorem demo_getters_agree_with_header_witness :
    (7 ≤ highestBasicLeaf hwDemo ∧ highestBasicLeaf hwDemo < 2147483647 ∧
      highestExtendedLeafInt hwDemo < 2147483647 ∧
      (highestBasicLeaf hwDemo + 1).toNat ≤ heap32.dataCapacity ∧
      (highestExtendedLeafInt hwDemo + 2147483649).toNat ≤ heap32.extdataCapacity ∧
      ∀ e : Int, hwDemo.subleaf e 0 = hwDemo.leaf e) ∧
    (∃ CPU_Rep, (InstructionSet_Internal.new hwDemo heap32).result = some CPU_Rep ∧
      (isMmxAvailable hwDemo).result = InstructionSet.MMX CPU_Rep ∧
      (isAvx512VlAvailable hwDemo).result = InstructionSet.AVX512VL CPU_Rep) ∧
    (isMmxAvailable hwDemo).result = true ∧ (isSseAvailable hwDemo).result = false ∧
    (isAvx512VlAvailable hwDemo).result = true :=
  ⟨⟨by decide, by decide, by decide, by decide, by decide, fun _ => rfl⟩,
    (demo_getters_agree_with_header hwDemo heap32 (by decide) (by decide) (by decide)
      (by decide) (by decide)
      (fun _ => rfl)).imp (fun _ h => ⟨h.1, h.2.1, h.2.2.2.2.2.2.2.2.2.2.2.2.2.2.2.2.2.2⟩),
    by decide, by decide, by decide⟩

/-! ## Allocator equality as a relation -/

/-- C21: allocator equality is an equivalence relation that rebinding preserves.
Over all `AlignedAllocator<T, A>` instances `operator==` is reflexive, symmetric
and transitive; `rebind<U>::other` of `AlignedAllocator<T, A>` is
`AlignedAllocator<U, A>`, with the alignment kept, and every allocator compares
equal to any instance of its rebound type and to the allocator the converting
copy constructor makes from it. -/
theorem operatorEq_equivalence_rebind :
    (∀ (T : CType) (A : Nat) (a : AlignedAllocator T A), operatorEq a a = true) ∧
    (∀ (T U : CType) (A B : Nat) (a : AlignedAllocator T A) (b : AlignedAllocator U B),
      operatorEq a b = true → operatorEq b a = true) ∧
    (∀ (T U V : CType) (A B C : Nat) (a : AlignedAllocator T A) (b : AlignedAllocator U B)
      (c : AlignedAllocator V C),
      operatorEq a b = true → operatorEq b c = true → operatorEq a c = true) ∧
    (∀ (T U : CType) (A : Nat),
      AlignedAllocator.rebind_other T A U = AlignedAllocator U A) ∧
    (∀ (T U : CType) (A : Nat) (a : AlignedAllocator T A)
      (b : AlignedAllocator.rebind_other T A U),
      operatorEq a b = true ∧ operatorEq b a = true) ∧
    (∀ (T U : CType) (A : Nat) (a : AlignedAllocator T A),
      operatorEq a (AlignedAllocator.ofOther a : AlignedAllocator U A) = true ∧
      operatorEq (AlignedAllocator.ofOther a : AlignedAllocator U A) a = true) := by
  refine ⟨?_, ?_, ?_, ?_, ?_, ?_⟩
  · intro T A a
    simp [operatorEq]
  · intro T U A B a b h
    simp only [operatorEq, beq_iff_eq] at h ⊢
    exact h.symm
  · intro T U V A B C a b c hab hbc
    simp only [operatorEq, beq_iff_eq] at hab hbc ⊢
    exact hab.trans hbc
  · intro T U A
    rfl
  · intro T U A a b
    simp [operatorEq]
  · intro T U A a
    simp [operatorEq]

theorem operatorEq_equivalence_rebind_witness :
    (operatorEq (⟨⟩ : AlignedAllocator cFloat 32) (⟨⟩ : AlignedAllocator cDouble 32) = true ∧
      operatorEq (⟨⟩ : AlignedAllocator cDouble 32) (⟨⟩ : AlignedAllocator cFloat 32) = true) ∧
    operatorEq (⟨⟩ : AlignedAllocator cFloat 32)
      (AlignedAllocator.ofOther (⟨⟩ : AlignedAllocator cDouble 32) : AlignedAllocator cFloat 32)
      = true ∧
    operatorEq (⟨⟩ : AlignedAllocator cFloat 32) (⟨⟩ : AlignedAllocator cFloat 16) = false :=
  ⟨⟨by decide,
      operatorEq_equivalence_rebind.2.1 cFloat cDouble 32 32 ⟨⟩ ⟨⟩ (by decide)⟩,
    operatorEq_equivalence_rebind.2.2.1 cFloat cDouble cFloat 32 32 32 ⟨⟩ ⟨⟩
      (AlignedAllocator.ofOther (⟨⟩ : AlignedAllocator cDouble 32)) (by decide)
      ((operatorEq_equivalence_rebind.2.2.2.2.2 cDouble cFloat 32 ⟨⟩).1),
    by decide⟩

/-! ## Index safety of the demonstration program's constructor -/

theorem captureN_length (hw : Hardware) (n : Nat) :
    ∀ (i : Int) (log : List Query), (captureN hw n i log).1.length = n := by
  induction n with
  | zero =>
    intro i log
    simp [captureN, pure]
  | succ n ih =>
    intro i log
    simp only [captureN, cpuidex, bind, pure, List.length_cons, ih]

theorem loadLeaf1_isSome (nIds_ : Int) (data_ : List (List Int))
    (h : nIds_ ≥ 1 → ∃ d, data_[1]? = some d) : ∃ f, loadLeaf1 nIds_ data_ = some f := by
  unfold loadLeaf1
  by_cases hc : nIds_ ≥ 1
  · obtain ⟨d, hd⟩ := h hc
    simp [hc, hd]
  · simp [hc]

theorem loadLeaf7_isSome (nIds_ : Int) (data_ : List (List Int))
    (h : nIds_ ≥ 7 → ∃ d, data_[7]? = some d) : ∃ f, loadLeaf7 nIds_ data_ = some f := by
  unfold loadLeaf7
  by_cases hc : nIds_ ≥ 7
  · obtain ⟨d, hd⟩ := h hc
    simp [hc, hd]
  · simp [hc]

theorem getElem_of_lt (l : List (List Int)) (k : Nat) (h : k < l.length) :
    ∃ d, l[k]? = some d :=
  ⟨_, List.getElem?_eq_getElem h⟩

theorem extdata_length (hw : Hardware) (nExIds_ : Int) (log : List Query) :
    (captureN hw (nExIds_ + 1 - toInt 0x80000000).toNat (toInt 0x80000000) log).1.length =
      (nExIds_ + 2147483649).toNat := by
  rw [captureN_length, toInt_min]
  congr 1
  omega

theorem extdata_count (nExIds_ : Int) :
    (nExIds_ + 1 - toInt 0x80000000).toNat = (nExIds_ + 2147483649).toNat := by
  rw [toInt_min]
  congr 1
  omega

theorem new_completes (hw : Hardware) (heap : Heap) (h0 : 0 ≤ highestBasicLeaf hw)
    (hmax : highestBasicLeaf hw < 2147483647)
    (hext : highestExtendedLeafInt hw < 2147483647)
    (hcapd : (highestBasicLeaf hw + 1).toNat ≤ heap.dataCapacity)
    (hcape : (highestExtendedLeafInt hw + 2147483649).toNat ≤ heap.extdataCapacity) :
    ∃ rep, (InstructionSet_Internal.new hw heap).result = some rep := by
  have hn : at4 (hw.leaf 0).words 0 = highestBasicLeaf hw := rfl
  have hne : at4 (hw.leaf (toInt 0x80000000)).words 0 = highestExtendedLeafInt hw := rfl
  have hlo : -2147483648 ≤ highestExtendedLeafInt hw :=
    (toInt_range (hw.leaf (toInt 0x80000000)).eax).1
  have hmin := toInt_min
  have hcd : (highestBasicLeaf hw + 1 - 0).toNat ≤ heap.dataCapacity := by
    rw [Int.sub_zero]
    exact hcapd
  have hce : (highestExtendedLeafInt hw + 1 - toInt 0x80000000).toNat
      ≤ heap.extdataCapacity := by
    rw [extdata_count]
    exact hcape
  simp only [InstructionSet_Internal.new, cpuid, M.result, bind, pure]
  rw [hn, hne, captureLeaves_result hw _ 0 _ _ (by omega) hcd]
  simp only []
  have hlen := captureN_length hw (highestBasicLeaf hw + 1 - 0).toNat 0 ([] ++ [Query.leaf 0])
  obtain ⟨d0, hd0⟩ := getElem_of_lt _ 0 (by rw [hlen]; omega)
  obtain ⟨v, hv⟩ := captureVendor_isSome _ _ hd0
  obtain ⟨f1, h1⟩ := loadLeaf1_isSome (highestBasicLeaf hw) _
    (fun hc => getElem_of_lt _ 1 (by rw [hlen]; omega))
  obtain ⟨f7, h7e⟩ := loadLeaf7_isSome (highestBasicLeaf hw) _
    (fun hc => getElem_of_lt _ 7 (by rw [hlen]; omega))
  simp only [hv, h1, h7e]
  rw [captureLeaves_result hw _ _ _ _ (by omega) hce]
  simp only []
  generalize (captureLeaves hw heap.dataCapacity 0 (highestBasicLeaf hw)
    ([] ++ [Query.leaf 0])).2 ++ [Query.leaf (toInt 0x80000000)] = lg
  obtain ⟨f, hf⟩ := loadLeaf81_isSome (highestExtendedLeafInt hw) _
    (fun hc => extdata_getElem hw _ lg 1 hlo (by omega))
  obtain ⟨b, hb⟩ := captureBrand_isSome (highestExtendedLeafInt hw) _
    (fun hc => ⟨extdata_getElem hw _ lg 2 hlo (by omega), extdata_getElem hw _ lg 3 hlo (by omega),
      extdata_getElem hw _ lg 4 hlo (by omega)⟩)
  simp only [hf, hb]
  exact ⟨_, rfl⟩

theorem new_none_of_negative (hw : Hardware) (heap : Heap) (hneg : highestBasicLeaf hw < 0) :
    (InstructionSet_Internal.new hw heap).result = none := by
  have hn : at4 (hw.leaf 0).words 0 = highestBasicLeaf hw := rfl
  have hz : (highestBasicLeaf hw + 1 - 0).toNat = 0 := by omega
  have hcv : captureVendor [] = none := by decide
  simp only [InstructionSet_Internal.new, cpuid, M.result, bind, pure]
  rw [hn, captureLeaves_result hw _ 0 _ _ (by omega) (by rw [hz]; exact Nat.zero_le _), hz]
  simp only [captureN, pure, hcv]

/-- C22: index safety of the constructor of the demonstration program.  For every
oracle whose leaf 0 EAX is non-negative as an `int` and whose leaf `0x80000000`
EAX is below the largest `int`, on every heap, every indexed access to the
captured tuple lists is in bounds: whenever the first capture loop hands over
`data_`, index 0 is in bounds, index 1 when `nIds_ >= 1` and index 7 when
`nIds_ >= 7`, so the three blocks reading `data_` succeed; whenever the second
capture loop hands over `extdata_`, index 1 is in bounds when the highest
extended leaf is at least `0x80000001` and indices 2..4 when it is at least
`0x80000004`, so the two blocks reading `extdata_` succeed.  Both loops hand over
their lists, and the constructor completes, when leaf 0 EAX is below the largest
`int` and the heap holds the tuples the loops push; when leaf 0 EAX is the
largest `int`, or a loop needs more tuples than the heap holds, that loop has no
normal exit and no access is reached.  With leaf 0 EAX negative `data_` is
empty, the access `data_[0]` is out of bounds and the constructor builds no
object. -/
theorem demo_constructor_index_safety (hw : Hardware) (heap : Heap) :
    (0 ≤ highestBasicLeaf hw → highestExtendedLeafInt hw < 2147483647 →
      (∀ (log : List Query) (data_ : List (List Int)),
        (captureLeaves hw heap.dataCapacity 0 (highestBasicLeaf hw) log).1 = some data_ →
        0 < data_.length ∧ (1 ≤ highestBasicLeaf hw → 1 < data_.length) ∧
        (7 ≤ highestBasicLeaf hw → 7 < data_.length) ∧
        (captureVendor data_).isSome = true ∧
        (loadLeaf1 (highestBasicLeaf hw) data_).isSome = true ∧
        (loadLeaf7 (highestBasicLeaf hw) data_).isSome = true) ∧
      (∀ (log : List Query) (extdata_ : List (List Int)),
        (captureLeaves hw heap.extdataCapacity (toInt 0x80000000)
          (highestExtendedLeafInt hw) log).1 = some extdata_ →
        (0x80000001 ≤ highestExtendedLeaf hw → 1 < extdata_.length) ∧
        (0x80000004 ≤ highestExtendedLeaf hw → 4 < extdata_.length) ∧
        (loadLeaf81 (highestExtendedLeafInt hw) extdata_).isSome = true ∧
        (captureBrand (highestExtendedLeafInt hw) extdata_).isSome = true) ∧
      (highestBasicLeaf hw < 2147483647 →
        (highestBasicLeaf hw + 1).toNat ≤ heap.dataCapacity →
        (highestExtendedLeafInt hw + 2147483649).toNat ≤ heap.extdataCapacity →
        (∀ log : List Query, ∃ data_ : List (List Int),
          (captureLeaves hw heap.dataCapacity 0 (highestBasicLeaf hw) log).1 = some data_) ∧
        (∀ log : List Query, ∃ extdata_ : List (List Int),
          (captureLeaves hw heap.extdataCapacity (toInt 0x80000000)
            (highestExtendedLeafInt hw) log).1 = some extdata_) ∧
        ∃ CPU_Rep, (InstructionSet_Internal.new hw heap).result = some CPU_Rep) ∧
      (highestBasicLeaf hw = 2147483647 →
        ∀ log : List Query,
          (captureLeaves hw heap.dataCapacity 0 (highestBasicLeaf hw) log).1 = none) ∧
      (heap.dataCapacity < (highestBasicLeaf hw + 1).toNat →
        ∀ log : List Query,
          (captureLeaves hw heap.dataCapacity 0 (highestBasicLeaf hw) log).1 = none) ∧
      (heap.extdataCapacity < (highestExtendedLeafInt hw + 2147483649).toNat →
        ∀ log : List Query,
          (captureLeaves hw heap.extdataCapacity (toInt 0x80000000)
            (highestExtendedLeafInt hw) log).1 = none)) ∧
    (highestBasicLeaf hw < 0 →
      (∀ log : List Query,
        (captureLeaves hw heap.dataCapacity 0 (highestBasicLeaf hw) log).1 = some []) ∧
      ([] : List (List Int))[0]? = none ∧ captureVendor [] = none ∧
      (InstructionSet_Internal.new hw heap).result = none) := by
  have hlo : -2147483648 ≤ highestExtendedLeafInt hw :=
    (toInt_range (hw.leaf (toInt 0x80000000)).eax).1
  have hmin := toInt_min
  have hun : toUnsigned (highestExtendedLeafInt hw) = highestExtendedLeaf hw :=
    toUnsigned_toInt _
  constructor
  · intro h0 hext
    refine ⟨?_, ?_, ?_, ?_, ?_, ?_⟩
    · intro log data_ hd
      obtain ⟨_, _, hv⟩ := captureLeaves_some hw _ 0 _ log data_ hd
      have hlen := captureN_length hw (highestBasicLeaf hw + 1 - 0).toNat 0 log
      rw [← hv] at hlen
      have b0 : 0 < data_.length := by omega
      refine ⟨b0, fun h1 => by omega, fun h7 => by omega, ?_, ?_, ?_⟩
      · obtain ⟨d, hd0⟩ := getElem_of_lt data_ 0 b0
        exact Option.isSome_iff_exists.mpr (captureVendor_isSome data_ d hd0)
      · exact Option.isSome_iff_exists.mpr
          (loadLeaf1_isSome _ data_ (fun hc => getElem_of_lt data_ 1 (by omega)))
      · exact Option.isSome_iff_exists.mpr
          (loadLeaf7_isSome _ data_ (fun hc => getElem_of_lt data_ 7 (by omega)))
    · intro log extdata_ hd
      obtain ⟨_, _, hv⟩ := captureLeaves_some hw _ _ _ log extdata_ hd
      have hlen := extdata_length hw (highestExtendedLeafInt hw) log
      rw [← hv] at hlen
      have b1 : 0x80000001 ≤ highestExtendedLeaf hw → 1 < extdata_.length := by
        intro hc
        rw [← hun] at hc
        unfold toUnsigned at hc
        omega
      have b4 : 0x80000004 ≤ highestExtendedLeaf hw → 4 < extdata_.length := by
        intro hc
        rw [← hun] at hc
        unfold toUnsigned at hc
        omega
      refine ⟨b1, b4, ?_, ?_⟩
      · exact Option.isSome_iff_exists.mpr
          (loadLeaf81_isSome _ _ (fun hc => getElem_of_lt _ 1 (b1 (by rw [← hun]; exact hc))))
      · exact Option.isSome_iff_exists.mpr
          (captureBrand_isSome _ _ (fun hc =>
            have h4 := b4 (by rw [← hun]; exact hc)
            ⟨getElem_of_lt _ 2 (by omega), getElem_of_lt _ 3 (by omega),
              getElem_of_lt _ 4 h4⟩))
    · intro hmax hcapd hcape
      refine ⟨fun log => ⟨_, captureLeaves_result hw _ 0 _ log (by omega)
          (by rw [Int.sub_zero]; exact hcapd)⟩,
        fun log => ⟨_, captureLeaves_result hw _ _ _ log (by omega)
          (by rw [extdata_count]; exact hcape)⟩,
        new_completes hw heap h0 hmax hext hcapd hcape⟩
    · intro hmax log
      exact captureLeaves_none hw _ 0 _ log ⟨h0, hmax⟩
    · intro hcap log
      exact captureLeaves_none_of_capacity hw _ 0 _ log (by rw [Int.sub_zero]; exact hcap)
    · intro hcap log
      exact captureLeaves_none_of_capacity hw _ _ _ log (by rw [extdata_count]; exact hcap)
  · intro hneg
    refine ⟨?_, rfl, by decide, new_none_of_negative hw heap hneg⟩
    intro log
    have hz : (highestBasicLeaf hw + 1 - 0).toNat = 0 := by omega
    rw [captureLeaves_result hw _ 0 _ log (by omega) (by rw [hz]; exact Nat.zero_le _), hz]
    rfl

theorem demo_constructor_index_safety_witness :
    (0 ≤ highestBasicLeaf hwDemo ∧ highestExtendedLeafInt hwDemo < 2147483647 ∧
      highestBasicLeaf hwDemo < 2147483647 ∧
      (highestBasicLeaf hwDemo + 1).toNat ≤ heap32.dataCapacity ∧
      (highestExtendedLeafInt hwDemo + 2147483649).toNat ≤ heap32.extdataCapacity) ∧
    (∃ CPU_Rep, (InstructionSet_Internal.new hwDemo heap32).result = some CPU_Rep) ∧
    ((InstructionSet_Internal.new hwDemo heap32).result.map
      (fun rep => (rep.data_.length, rep.extdata_.length))) = some (8, 5) ∧
    highestBasicLeaf hwNegBasic < 0 ∧
    (InstructionSet_Internal.new hwNegBasic heap32).result = none :=
  ⟨⟨by decide, by decide, by decide, by decide, by decide⟩,
    (((demo_constructor_index_safety hwDemo heap32).1 (by decide) (by decide)).2.2.1
      (by decide) (by decide) (by decide)).2.2,
    by decide, by decide,
    ((demo_constructor_index_safety hwNegBasic heap32).2 (by decide)).2.2.2⟩

end simdutil
